import Mathlib

/-!
Shallow embedding of the gpstomqtt repository (src/nmea0183tomqtt.c) and
proofs about claims made by its natural-language specification.

Modelling conventions:
* C doubles are modelled as exact rationals; NaN is modelled as `none` in
  `Option ℚ`.  Printf-style formatting is modelled by a deterministic
  fixed-point formatter (`fmtQ`); the claims below never depend on the exact
  rounding of the binary double, only on determinism and on integer
  decompositions, which are exact.
* C strings are Lean `String`s / `List Char`s; the NUL terminator is implicit
  (reads past the end yield the NUL character `'\x00'` where it matters).
* Machine integers are `Int` with explicit wrapping (`toInt32`, `wrap64`)
  where the C code can overflow; `strtol` saturation at `LONG_MAX` is
  modelled by `clampLong`.
* MQTT side effects are explicit: every operation returns the list of
  immediate `mosquitto_publish` calls it makes, and the retained cache
  (the `topics` linked list of the C code) is an explicit list in a state
  record `St` that mirrors the file-scope mutable globals.
-/

/-- ASCII decimal digit test (as used by `strtol` / `strtod`). -/
def isDigitC (c : Char) : Bool := '0' ≤ c && c ≤ '9'

/-- ASCII whitespace as accepted by `isspace` in the C locale. -/
def isSpaceC (c : Char) : Bool :=
  c == ' ' || c == '\t' || c == '\n' || c == '\x0b' || c == '\x0c' || c == '\r'

/-- Split a character list into its leading run of decimal digits and the rest. -/
def spanDigits : List Char → List Char × List Char
  | [] => ([], [])
  | c :: cs =>
    if isDigitC c then (c :: (spanDigits cs).1, (spanDigits cs).2)
    else ([], c :: cs)

/-- Value of a digit string, most significant digit first. -/
def digitsToNat (ds : List Char) : Nat :=
  ds.foldl (fun a c => a * 10 + (c.toNat - 48)) 0

/-- Drop leading whitespace, as `strtol`/`strtod` do. -/
def skipSpace : List Char → List Char
  | [] => []
  | c :: cs => if isSpaceC c then skipSpace cs else c :: cs

def longMax : Int := 9223372036854775807
def longMin : Int := -9223372036854775808

/-- Saturation of `strtol` results at the `long` range. -/
def clampLong (n : Int) : Int := max longMin (min longMax n)

/-- Model of `strtol(str, &endp, 10)`: returns the parsed value and the
remainder of the string starting at `endp`.  Handles optional sign and
leading whitespace; with no digits, the value is 0 and `endp` is the whole
input, per the C standard. -/
def strtolP (s : String) : Int × String :=
  let cs := skipSpace s.data
  let neg : Bool := cs.headD ' ' == '-'
  let cs1 := if cs.headD ' ' == '-' || cs.headD ' ' == '+' then cs.drop 1 else cs
  let ds := (spanDigits cs1).1
  let rest := (spanDigits cs1).2
  if ds.isEmpty then (0, s)
  else (clampLong ((if neg then -1 else 1) * (digitsToNat ds : Int)), String.mk rest)

/-- Model of `strtod` restricted to plain decimal notation
`[space][sign][digits][.digits]` (the only shape NMEA fields take);
no conversion yields 0, per the C standard. -/
def strtodQ (s : String) : ℚ :=
  let cs := skipSpace s.data
  let neg : Bool := cs.headD ' ' == '-'
  let cs1 := if cs.headD ' ' == '-' || cs.headD ' ' == '+' then cs.drop 1 else cs
  let ip := (spanDigits cs1).1
  let r1 := (spanDigits cs1).2
  let fp := match r1 with
    | '.' :: r => (spanDigits r).1
    | _ => []
  if ip.isEmpty && fp.isEmpty then 0
  else
    let mag : ℚ := (digitsToNat ip : ℚ) + (digitsToNat fp : ℚ) / ((10 : ℚ) ^ fp.length)
    if neg then -mag else mag

/-- Embedding of `nmea_deg_to_double` (src/nmea0183tomqtt.c lines 470-479):
empty input is NaN (`none`); otherwise
`((lval % 100) + strtod(endp)) / 60.0 + (lval / 100)` with C (truncating)
`long` division and remainder. -/
def nmea_deg_to_double (s : String) : Option ℚ :=
  if s = "" then none
  else
    some ((((strtolP s).1.tmod 100 : ℚ) + strtodQ (strtolP s).2) / 60
      + ((strtolP s).1.tdiv 100 : ℚ))

/-- Embedding of `nmea_strtod` (lines 480-483): empty is NaN. -/
def nmea_strtodO (s : String) : Option ℚ :=
  if s = "" then none else some (strtodQ s)

/-- Parsing facts used to evaluate `nmea_deg_to_double` at `"-101"`. -/
theorem strtolP_neg101 : strtolP "-101" = (-101, "") := by decide

/-- Claim C5 (counterexample): the claim computes the return value of
`nmea_deg_to_double` with floored division `floor(N/100)` and nonnegative
`N mod 100`; on the input `"-101"` the code (which uses C truncating `/`
and `%`) returns `-61/60`, while the claimed formula gives `-21/60`. -/
theorem c5_counterexample :
    nmea_deg_to_double "-101" = some (-(61 / 60 : ℚ)) ∧
    (((Int.fdiv (-101) 100 : Int) : ℚ) +
        (((Int.emod (-101) 100 : Int) : ℚ) + strtodQ (strtolP "-101").2) / 60)
      = -(21 / 60 : ℚ) ∧
    (-(61 / 60 : ℚ)) ≠ -(21 / 60 : ℚ) := by
  have h1 : ((-101 : Int).tmod 100) = -1 := by decide
  have h2 : ((-101 : Int).tdiv 100) = -1 := by decide
  have h3 : ((-101 : Int).fdiv 100) = -2 := by decide
  have h4 : ((-101 : Int).emod 100) = 99 := by decide
  have h5 : strtodQ "" = 0 := rfl
  refine ⟨?_, ?_, by norm_num⟩
  · unfold nmea_deg_to_double
    rw [if_neg (by decide : ¬("-101" : String) = ""), strtolP_neg101]
    simp only [h1, h2, h5]
    norm_num
  · rw [strtolP_neg101]
    simp only [h3, h4, h5]
    norm_num

/-- Helper: truncating and floored division agree on nonnegative dividends. -/
theorem tdiv_eq_fdiv_of_nonneg (a : Int) (h : 0 ≤ a) : a.tdiv 100 = a.fdiv 100 := by
  obtain ⟨n, rfl⟩ := Int.eq_ofNat_of_zero_le h
  cases n <;> rfl

/-- Helper: truncating remainder and Euclidean remainder agree on nonnegative
dividends. -/
theorem tmod_eq_emod_of_nonneg (a : Int) (h : 0 ≤ a) : a.tmod 100 = a.emod 100 := by
  obtain ⟨n, rfl⟩ := Int.eq_ofNat_of_zero_le h
  cases n <;> rfl

/-- Claim C5 (amended): empty input yields NaN, and whenever the leading
integer `N` parsed by `strtol` is nonnegative (every syntactically valid
NMEA coordinate), the result is `floor(N/100) + ((N mod 100) + frac) / 60`
exactly as the claim states; for negative `N` the code uses C truncating
division/remainder instead (see the counterexample). -/
theorem c5_amended_deg_formula (s : String) (h : s ≠ "")
    (hnn : 0 ≤ (strtolP s).1) :
    nmea_deg_to_double s =
      some ((((strtolP s).1.fdiv 100 : Int) : ℚ) +
        ((((strtolP s).1.emod 100 : Int) : ℚ) + strtodQ (strtolP s).2) / 60) := by
  unfold nmea_deg_to_double
  rw [if_neg h, tdiv_eq_fdiv_of_nonneg _ hnn, tmod_eq_emod_of_nonneg _ hnn]
  congr 1
  ring

/-- Claim C5 witness: the amended theorem applied to the concrete coordinate
string `"4807.038"`. -/
theorem c5_witness :
    nmea_deg_to_double "4807.038" =
      some ((((strtolP "4807.038").1.fdiv 100 : Int) : ℚ) +
        ((((strtolP "4807.038").1.emod 100 : Int) : ℚ) + strtodQ (strtolP "4807.038").2) / 60) :=
  c5_amended_deg_formula "4807.038" (by decide) (by decide)

/-! ## The retained-publication cache and the mutable program state -/

/-- One entry of the `struct topic` linked list (lines 307-314): `payload`
is `none` when the C `payload` pointer is NULL. -/
structure TopicEntry where
  written : Bool
  retain : Bool
  ctrltopic : Bool
  topic : String
  payload : Option String
deriving DecidableEq

instance : Inhabited TopicEntry := ⟨⟨false, false, false, "", none⟩⟩

/-- One call to `mosquitto_publish`. -/
structure Pub where
  topic : String
  payload : String
  retain : Bool
deriving DecidableEq

/-- A satellite record, `struct sat` (lines 612-618).  A fresh record is
all-zero (`memset`), hence `snr = 0`, not `-1`. -/
structure Sat where
  snr : Int
  elv : Int
  azm : Int
  recvd : Bool
  sent : Bool
deriving DecidableEq

def satZero : Sat := ⟨0, 0, 0, false, false⟩

instance : Inhabited Sat := ⟨satZero⟩

/-- Per-talker GSV state, `struct gsv` (lines 630-638).  The wall-clock
field `trecvd` is not modelled (it is never read by the claims below);
the C field `new` is called `gnew` here. -/
structure Gsv where
  talker : String
  satmin : Int
  satmax : Int
  satview : Int
  sattrack : Int
  sattrack_saved : Int
  satuse : Int
  gnew : Bool
deriving DecidableEq

/-- A freshly allocated `struct gsv` (lines 662-665): zeroed, then the
talker is stored and `new = 1`. -/
def mkGsv (tal : String) : Gsv :=
  { talker := tal, satmin := 0, satmax := 0, satview := 0,
    sattrack := 0, sattrack_saved := 0, satuse := 0, gnew := true }

/-- The file-scope mutable state of nmea0183tomqtt.c that the claims touch.
`prefixStr`/`def_talker`/`def_talker_mqtt` are `topicprefix`, `def_talker`
and `def_talker_mqtt`; `inData` is `in_data_sentence`; `sats` is the
realloc'd array indexed by PRN with `ssats` its size. -/
structure St where
  topics : List TopicEntry := []
  ndirty : Nat := 0
  always : Bool := false
  inData : Bool := false
  nmea_use : List Char := "+gga,-gns,-gsa,-gsv,+vtg,+zda".data
  def_talker : String := "gp"
  def_talker_mqtt : Option String := none
  prefixStr : String := "gps/"
  talker : String := ""
  sats : List Sat := []
  ssats : Nat := 0
  gsvs : List Gsv := []
  portalive : Int := -1
  gn_satuse_emitted : Bool := false
deriving DecidableEq

/-- The effective default talker: `def_talker_mqtt ?: def_talker`. -/
def effDef (st : St) : String := st.def_talker_mqtt.getD st.def_talker

/-- Topic resolution in `publish_topicrt` (lines 357-360): the talker is
prefixed unless it is NULL, or it equals the default talker without
`FL_IGN_DEF_TALKER`. -/
def realtopic (st : St) (tal : Option String) (ignDef : Bool) (topic : String) : String :=
  match tal with
  | some t =>
    if ignDef = true ∨ t ≠ effDef st then st.prefixStr ++ t ++ "/" ++ topic
    else st.prefixStr ++ topic
  | none => st.prefixStr ++ topic

/-- The `"nan"`-to-empty rewrite of lines 354-355. -/
def nanFix (v : String) : String := if v = "nan" then "" else v

/-- Find-or-create plus payload update of `publish_cache` (lines 377-404):
returns the updated list and the `ndirty` increment.  A fresh entry is
zeroed, appended at the tail, gets `retain = 1` and
`ctrltopic = !in_data_sentence`; the payload is replaced (and the dirty
counter bumped) exactly when `strcmp(it->payload ?: "", value) != 0`. -/
def writeEntry : List TopicEntry → Bool → String → String → List TopicEntry × Nat
  | [], ctrl, t, v =>
    ([{ written := true, retain := true, ctrltopic := ctrl, topic := t,
        payload := if v ≠ "" then some v else none }],
     if v ≠ "" then 1 else 0)
  | e :: es, ctrl, t, v =>
    if e.topic = t then
      (({ e with
          written := true
          payload := if e.payload.getD "" ≠ v then some v else e.payload }) :: es,
       if e.payload.getD "" ≠ v then 1 else 0)
    else
      (e :: (writeEntry es ctrl t v).1, (writeEntry es ctrl t v).2)

/-- Embedding of `publish_cache` (lines 365-405): non-retained or
`FL_NO_CACHE` publishes go straight to MQTT, everything else lands in the
cache with no immediate publish. -/
def publish_cache (st : St) (rt value : String) (flRetain noCache : Bool) : St × List Pub :=
  if flRetain = false ∨ noCache = true then (st, [⟨rt, value, flRetain⟩])
  else
    ({ st with
        topics := (writeEntry st.topics (!st.inData) rt value).1
        ndirty := st.ndirty + (writeEntry st.topics (!st.inData) rt value).2 }, [])

/-- Embedding of `publish_topicrt` (lines 341-363); `vfmt = none` models a
NULL format (empty payload). -/
def publish_topicrt (st : St) (tal : Option String) (topic : String)
    (flRetain ignDef noCache : Bool) (vfmt : Option String) : St × List Pub :=
  publish_cache st (realtopic st tal ignDef topic) (nanFix (vfmt.getD "")) flRetain noCache

/-- Clear all `written` flags, as the flush loop does. -/
def stripW (es : List TopicEntry) : List TopicEntry :=
  es.map (fun e => { e with written := false })

/-- Embedding of `flush_pending_topics` (lines 407-422): publish every
written entry when `ndirty || always`, then clear `written` and `ndirty`. -/
def flush_pending_topics (st : St) : St × List Pub :=
  ({ st with topics := stripW st.topics, ndirty := 0 },
   st.topics.filterMap (fun e =>
     if e.written = true ∧ (st.ndirty ≠ 0 ∨ st.always = true) then
       some ⟨e.topic, e.payload.getD "", e.retain⟩
     else none))

/-- One entry's transformation in `erase_topics` (lines 428-439). -/
def eraseStep (clrctrl : Bool) (e : TopicEntry) : TopicEntry :=
  if (e.ctrltopic = true ∧ clrctrl = false) ∨ e.payload = none then e
  else { e with payload := none, written := true }

/-- How many entries `erase_topics` marks dirty. -/
def eraseCount (clrctrl : Bool) (es : List TopicEntry) : Nat :=
  es.countP (fun e =>
    !(decide ((e.ctrltopic = true ∧ clrctrl = false) ∨ e.payload = none)))

/-- Embedding of `erase_topics` (lines 424-441). -/
def erase_topics (st : St) (clrctrl : Bool) : St × List Pub :=
  flush_pending_topics
    { st with
        topics := st.topics.map (eraseStep clrctrl)
        ndirty := st.ndirty + eraseCount clrctrl st.topics }

/-- The SIGALRM branch of the main loop (lines 1206-1215): when the port is
not already dead, publish retained `alive=0`, erase the data topics, flush,
and mark the port dead. -/
def alarm_branch (st : St) : St × List Pub :=
  if st.portalive ≠ 0 then
    let r1 := publish_topicrt st none "alive" true false false (some "0")
    let r2 := erase_topics r1.1 false
    let r3 := flush_pending_topics r2.1
    ({ r3.1 with portalive := 0 }, r1.2 ++ r2.2 ++ r3.2)
  else (st, [])

/-! ## Claim C1: default-talker topic resolution -/

/-- The topic names in the cache after a cached write: an existing topic is
updated in place, otherwise the new topic is appended at the tail. -/
theorem writeEntry_topics (es : List TopicEntry) (c : Bool) (t v : String) :
    (writeEntry es c t v).1.map (fun e => e.topic) =
      if es.any (fun e => e.topic == t) then es.map (fun e => e.topic)
      else es.map (fun e => e.topic) ++ [t] := by
  induction es with
  | nil => simp [writeEntry]
  | cons e es ih =>
    by_cases h : e.topic = t
    · simp [writeEntry, h]
    · simp [writeEntry, h, ih]
      split <;> rfl

/-- A state with the default talker `gp` (command-line default) current. -/
def c1st : St := { talker := "gp" }

/-- Claim C1 (counterexample): publishing `lat` through the cache with
talker `gp` equal to the default talker and without `FL_IGN_DEF_TALKER`
produces exactly ONE cache entry, the un-prefixed `gps/lat`; no
talker-prefixed duplicate `gps/gp/lat` exists, contradicting the claimed
"two cache entries". -/
theorem c1_counterexample :
    ((publish_topicrt c1st (some "gp") "lat" true false false (some "1")).1.topics.map
        (fun e => e.topic) = ["gps/lat"]) ∧
    ((publish_topicrt c1st (some "gp") "lat" true false false (some "1")).1.topics.length ≠ 2) ∧
    (∀ e ∈ (publish_topicrt c1st (some "gp") "lat" true false false (some "1")).1.topics,
      e.topic ≠ "gps/gp/lat") := by decide

/-- Claim C1 (amended): a cached publish whose talker equals the current
default talker, without `FL_IGN_DEF_TALKER`, produces no immediate publish
and touches exactly one cache entry — the un-prefixed `<prefix><topic>`
(appended if absent); the talker-prefixed form is NOT emitted. -/
theorem c1_amended_single_topic (st : St) (tal topic v : String) (h : tal = effDef st) :
    (publish_topicrt st (some tal) topic true false false (some v)).2 = [] ∧
    (publish_topicrt st (some tal) topic true false false (some v)).1.topics.map
        (fun e => e.topic) =
      (if st.topics.any (fun e => e.topic == st.prefixStr ++ topic) then
        st.topics.map (fun e => e.topic)
       else st.topics.map (fun e => e.topic) ++ [st.prefixStr ++ topic]) := by
  have hrt : realtopic st (some tal) false topic = st.prefixStr ++ topic := by
    simp [realtopic, h]
  constructor
  · simp [publish_topicrt, publish_cache]
  · simp [publish_topicrt, publish_cache, hrt, writeEntry_topics]

/-- Claim C1 witness: the amended theorem applied at the default state and
topic `lat`. -/
theorem c1_witness :
    (publish_topicrt c1st (some "gp") "lat" true false false (some "1")).2 = [] ∧
    (publish_topicrt c1st (some "gp") "lat" true false false (some "1")).1.topics.map
        (fun e => e.topic) =
      (if c1st.topics.any (fun e => e.topic == c1st.prefixStr ++ "lat") then
        c1st.topics.map (fun e => e.topic)
       else c1st.topics.map (fun e => e.topic) ++ [c1st.prefixStr ++ "lat"]) :=
  c1_amended_single_topic c1st "gp" "lat" "1" (by decide)

/-! ## Claim C7: liveness timeout erases data topics, keeps control topics -/

/-- An in-range `getD` is a member of the list. -/
theorem getD_mem {α : Type} [Inhabited α] (l : List α) (i : Nat) (h : i < l.length) :
    l.getD i default ∈ l := by
  induction l generalizing i with
  | nil => simp at h
  | cons a l ih =>
    cases i with
    | zero => simp
    | succ n =>
      simp only [List.getD_cons_succ]
      exact List.mem_cons_of_mem a (ih n (by simpa using h))

/-- `getD` through a `map`, in range. -/
theorem getD_map_lt {α β : Type} (f : α → β) (l : List α) (i : Nat) (d : β) (d0 : α)
    (h : i < l.length) : (l.map f).getD i d = f (l.getD i d0) := by
  induction l generalizing i with
  | nil => simp at h
  | cons a l ih =>
    cases i with
    | zero => simp
    | succ n => simpa using ih n (by simpa using h)

/-- `writeEntry` never shrinks the cache. -/
theorem writeEntry_len_ge (es : List TopicEntry) (c : Bool) (t v : String) :
    es.length ≤ (writeEntry es c t v).1.length := by
  induction es with
  | nil => simp [writeEntry]
  | cons e es ih =>
    by_cases h : e.topic = t
    · simp [writeEntry, h]
    · simpa [writeEntry, h] using ih

/-- Entries whose topic differs from the written one are untouched, at the
same position. -/
theorem writeEntry_getD_ne (es : List TopicEntry) (c : Bool) (t v : String) (i : Nat)
    (hi : i < es.length) (hne : (es.getD i default).topic ≠ t) :
    (writeEntry es c t v).1.getD i default = es.getD i default := by
  induction es generalizing i with
  | nil => simp at hi
  | cons e es ih =>
    by_cases h : e.topic = t
    · cases i with
      | zero => simp at hne; exact absurd h hne
      | succ n => simp [writeEntry, h]
    · cases i with
      | zero => simp [writeEntry, h]
      | succ n =>
        simp only [writeEntry, if_neg h, List.getD_cons_succ]
        exact ih n (by simpa using hi) (by simpa using hne)

/-- After `writeEntry`, some entry holds the written topic: it is written,
its payload prints as the written value, and (under the cache invariants
`retain = 1` everywhere and control tagging for this topic) it keeps
`retain` and `ctrltopic` set. -/
theorem writeEntry_mem_target (es : List TopicEntry) (c : Bool) (t v : String)
    (hv : v ≠ "")
    (hct : ∀ e ∈ es, e.topic = t → e.ctrltopic = true)
    (hrt : ∀ e ∈ es, e.retain = true)
    (hc : c = true) :
    ∃ e ∈ (writeEntry es c t v).1, e.topic = t ∧ e.written = true ∧
      e.payload.getD "" = v ∧ e.retain = true ∧ e.ctrltopic = true := by
  induction es with
  | nil =>
    refine ⟨{ written := true, retain := true, ctrltopic := c, topic := t,
              payload := if v ≠ "" then some v else none },
      by simp [writeEntry], ?_⟩
    refine ⟨rfl, rfl, ?_, rfl, hc⟩
    simp [hv]
  | cons e es ih =>
    by_cases h : e.topic = t
    · refine ⟨{ e with
                written := true
                payload := if e.payload.getD "" ≠ v then some v else e.payload },
        by simp [writeEntry, h], ?_⟩
      refine ⟨h, rfl, ?_, hrt e (by simp), hct e (by simp) h⟩
      by_cases hp : e.payload.getD "" ≠ v
      · simp [hp]
      · push_neg at hp
        simp [hp]
    · obtain ⟨e1, he1, hprops⟩ :=
        ih (fun x hx => hct x (by simp [hx])) (fun x hx => hrt x (by simp [hx]))
      exact ⟨e1, by simp [writeEntry, h, he1], hprops⟩

/-- If no cached entry for this topic already holds the value, `writeEntry`
reports exactly one dirty change. -/
theorem writeEntry_dirty_one (es : List TopicEntry) (c : Bool) (t v : String)
    (hv : v ≠ "") (hp : ∀ e ∈ es, e.topic = t → e.payload ≠ some v) :
    (writeEntry es c t v).2 = 1 := by
  induction es with
  | nil => simp [writeEntry, hv]
  | cons e es ih =>
    by_cases h : e.topic = t
    · have hpe := hp e (by simp) h
      have hne : e.payload.getD "" ≠ v := by
        cases hpp : e.payload with
        | none => simpa [hpp] using fun hEq => hv hEq.symm
        | some p =>
          simp only [hpp, Option.getD_some]
          intro hEq
          exact hpe (by rw [hpp, hEq])
      simp [writeEntry, h, hne]
    · simp only [writeEntry, if_neg h]
      exact ih (fun x hx hxt => hp x (by simp [hx]) hxt)

/-- A written cache entry is published by the flush whenever `ndirty ≠ 0`. -/
theorem flush_mem (st : St) (e : TopicEntry) (he : e ∈ st.topics) (hw : e.written = true)
    (hd : st.ndirty ≠ 0) :
    (⟨e.topic, e.payload.getD "", e.retain⟩ : Pub) ∈ (flush_pending_topics st).2 := by
  simp only [flush_pending_topics, List.mem_filterMap]
  exact ⟨e, he, by simp [hw, hd]⟩

/-- A retained, cached publish: no immediate MQTT traffic, one cache write. -/
theorem publish_cached (st : St) (tal : Option String) (topic : String) (ign : Bool)
    (v : String) :
    publish_topicrt st tal topic true ign false (some v) =
      ({ st with
          topics := (writeEntry st.topics (!st.inData) (realtopic st tal ign topic) (nanFix v)).1
          ndirty := st.ndirty +
            (writeEntry st.topics (!st.inData) (realtopic st tal ign topic) (nanFix v)).2 },
       []) := by
  simp [publish_topicrt, publish_cache]

/-- The state part of a flush, definitionally. -/
theorem flush_state (st : St) :
    (flush_pending_topics st).1 = { st with topics := stripW st.topics, ndirty := 0 } := rfl

/-- The state part of an erase, definitionally. -/
theorem erase_state (st : St) (c : Bool) :
    (erase_topics st c).1 =
      { st with topics := stripW (st.topics.map (eraseStep c)), ndirty := 0 } := rfl

/-- Lengths are preserved by `stripW`. -/
theorem stripW_length (es : List TopicEntry) : (stripW es).length = es.length := by
  simp [stripW]

/-- Cached writes preserve the all-control invariant whenever the tag for a
fresh entry is `true` (i.e. outside a data sentence). -/
theorem writeEntry_ctrl (es : List TopicEntry) (c : Bool) (t v : String)
    (hc : c = true) (h : ∀ e ∈ es, e.ctrltopic = true) :
    ∀ e ∈ (writeEntry es c t v).1, e.ctrltopic = true := by
  induction es with
  | nil =>
    intro e he
    simp only [writeEntry, List.mem_singleton] at he
    subst he
    exact hc
  | cons e0 es ih =>
    intro e he
    by_cases h0 : e0.topic = t
    · simp only [writeEntry, if_pos h0, List.mem_cons] at he
      rcases he with he | he
      · subst he
        exact h e0 (List.mem_cons_self _ _)
      · exact h e (List.mem_cons_of_mem _ he)
    · simp only [writeEntry, if_neg h0, List.mem_cons] at he
      rcases he with he | he
      · subst he
        exact h _ (List.mem_cons_self _ _)
      · exact ih (fun x hx => h x (List.mem_cons_of_mem _ hx)) e he

/-- On a cache with no `written` marks, the only entry a write leaves marked
is the written topic itself. -/
theorem writeEntry_written_topic (es : List TopicEntry) (c : Bool) (t v : String)
    (hw : ∀ e ∈ es, e.written = false) :
    ∀ e ∈ (writeEntry es c t v).1, e.written = true → e.topic = t := by
  induction es with
  | nil =>
    intro e he _
    simp only [writeEntry, List.mem_singleton] at he
    subst he
    rfl
  | cons e0 es ih =>
    intro e he hew
    by_cases h0 : e0.topic = t
    · simp only [writeEntry, if_pos h0, List.mem_cons] at he
      rcases he with he | he
      · subst he
        exact h0
      · exact absurd hew (by rw [hw e (List.mem_cons_of_mem _ he)]; decide)
    · simp only [writeEntry, if_neg h0, List.mem_cons] at he
      rcases he with he | he
      · subst he
        exact absurd hew (by rw [hw _ (List.mem_cons_self _ _)]; decide)
      · exact ih (fun x hx => hw x (List.mem_cons_of_mem _ hx)) e he hew

/-- A flush over a cache with no `written` marks publishes nothing. -/
theorem flush_nopub_unwritten (st : St) (h : ∀ e ∈ st.topics, e.written = false) :
    (flush_pending_topics st).2 = [] := by
  simp only [flush_pending_topics]
  rw [List.filterMap_eq_nil_iff]
  intro e he
  rw [if_neg]
  simp [h e he]

/-- `erase_topics(0)` maps every control entry to itself. -/
theorem eraseStep_ctrl_id (es : List TopicEntry) (h : ∀ e ∈ es, e.ctrltopic = true) :
    es.map (eraseStep false) = es := by
  induction es with
  | nil => rfl
  | cons e0 es ih =>
    have h0 : eraseStep false e0 = e0 := by
      rw [eraseStep, if_pos]
      exact Or.inl ⟨h e0 (List.mem_cons_self _ _), rfl⟩
    simp only [List.map_cons, h0, ih (fun x hx => h x (List.mem_cons_of_mem _ hx))]

/-- Claim C7: the liveness timeout erases nothing.  `in_data_sentence` is
only ever assigned `0` (lines 904 and 926; it is never set to `1`), so every
cache entry the program creates carries `ctrltopic = !in_data_sentence =
true` — including all data topics — and `erase_topics(0)` skips every
entry.  On SIGALRM with the port not dead, the code publishes retained
`alive=0` and marks the port dead, but the only topic appearing in the
publish list is `alive`: no cached data topic is erased or flushed as a
retained delete, and every cached payload other than `alive` survives
unchanged — contradicting the claimed erasure.  Hypotheses are the
reachable-cache invariants: the port is not dead, the handler runs outside
a data sentence (the variable is never 1), every entry is tagged control
(`writeEntry_ctrl` shows writes preserve this from the empty start cache),
every entry is retained and unwritten (flushes strip the marks), and the
cached `alive` payload is not already `"0"`. -/
theorem c7_timeout_erases_nothing (st : St)
    (h1 : st.portalive ≠ 0)
    (h2 : ∀ e ∈ st.topics, e.topic = st.prefixStr ++ "alive" → e.payload ≠ some "0")
    (h3 : ∀ e ∈ st.topics, e.retain = true)
    (h4 : st.inData = false)
    (hctrl : ∀ e ∈ st.topics, e.ctrltopic = true)
    (hw : ∀ e ∈ st.topics, e.written = false) :
    (alarm_branch st).1.portalive = 0 ∧
    (⟨st.prefixStr ++ "alive", "0", true⟩ : Pub) ∈ (alarm_branch st).2 ∧
    (∀ p ∈ (alarm_branch st).2, p.topic = st.prefixStr ++ "alive") ∧
    (∀ i, i < st.topics.length →
      (st.topics.getD i default).topic ≠ st.prefixStr ++ "alive" →
      ((alarm_branch st).1.topics.getD i default).payload =
        (st.topics.getD i default).payload ∧
      ((alarm_branch st).1.topics.getD i default).topic =
        (st.topics.getD i default).topic) := by
  have e1 : nanFix "0" = "0" := by decide
  have e2 : realtopic st none false "alive" = st.prefixStr ++ "alive" := rfl
  have hc : (!st.inData) = true := by rw [h4]; rfl
  have hANE : ("0" : String) ≠ "" := by decide
  have h5 : ∀ e ∈ st.topics, e.topic = st.prefixStr ++ "alive" → e.ctrltopic = true :=
    fun e he _ => hctrl e he
  have hW2 : (writeEntry st.topics (!st.inData) (st.prefixStr ++ "alive") "0").2 = 1 :=
    writeEntry_dirty_one _ _ _ _ hANE h2
  have hbranch : alarm_branch st =
      (let st1 : St := { st with
          topics := (writeEntry st.topics (!st.inData) (st.prefixStr ++ "alive") "0").1
          ndirty := st.ndirty +
            (writeEntry st.topics (!st.inData) (st.prefixStr ++ "alive") "0").2 };
       let st2 : St := { st1 with
          topics := st1.topics.map (eraseStep false)
          ndirty := st1.ndirty + eraseCount false st1.topics };
       ({ (flush_pending_topics (flush_pending_topics st2).1).1 with portalive := 0 },
        [] ++ (flush_pending_topics st2).2 ++
          (flush_pending_topics (flush_pending_topics st2).1).2)) := by
    simp only [alarm_branch, if_pos h1, publish_cached, e1, e2, erase_topics,
      flush_pending_topics]
  set W := writeEntry st.topics (!st.inData) (st.prefixStr ++ "alive") "0" with hWdef
  have hlenW : st.topics.length ≤ W.1.length := writeEntry_len_ge _ _ _ _
  have hWctrl : ∀ e ∈ W.1, e.ctrltopic = true :=
    writeEntry_ctrl st.topics (!st.inData) _ _ hc hctrl
  have hWwr : ∀ e ∈ W.1, e.written = true → e.topic = st.prefixStr ++ "alive" :=
    writeEntry_written_topic st.topics (!st.inData) _ _ hw
  set st1 : St := { st with topics := W.1, ndirty := st.ndirty + W.2 } with hst1
  set st2 : St := { st1 with
      topics := st1.topics.map (eraseStep false)
      ndirty := st1.ndirty + eraseCount false st1.topics } with hst2
  have hmapid : st2.topics = W.1 := by
    rw [hst2]
    exact eraseStep_ctrl_id W.1 hWctrl
  have hnd2 : st2.ndirty ≠ 0 := by
    simp only [hst2, hst1, hW2]
    omega
  have hfinaltopics : (alarm_branch st).1.topics = stripW (stripW st2.topics) := by
    rw [hbranch]
    simp [flush_state]
  have hpubs : (alarm_branch st).2 =
      [] ++ (flush_pending_topics st2).2 ++
        (flush_pending_topics (flush_pending_topics st2).1).2 := by
    rw [hbranch]
  have hstrip_unwr : ∀ e ∈ (flush_pending_topics st2).1.topics, e.written = false := by
    intro e he
    rw [flush_state] at he
    obtain ⟨e0, _, rfl⟩ := List.mem_map.mp he
    rfl
  have hr3 : (flush_pending_topics (flush_pending_topics st2).1).2 = [] :=
    flush_nopub_unwritten _ hstrip_unwr
  refine ⟨?_, ?_, ?_, ?_⟩
  · rw [hbranch]
  · -- the retained alive=0 publish
    obtain ⟨eA, heA, hAt, hAw, hAp, hAr, hActl⟩ :=
      writeEntry_mem_target st.topics (!st.inData) (st.prefixStr ++ "alive") "0"
        hANE h5 h3 hc
    have heA2 : eA ∈ st2.topics := by
      rw [hmapid]
      exact heA
    have := flush_mem st2 eA heA2 hAw hnd2
    rw [hpubs]
    rw [hAt, hAp, hAr] at this
    simp only [List.nil_append, List.mem_append]
    exact Or.inl this
  · -- the only published topic is alive
    intro p hp
    rw [hpubs, hr3] at hp
    simp only [List.nil_append, List.append_nil] at hp
    have hflt : (flush_pending_topics st2).2 = st2.topics.filterMap (fun e =>
        if e.written = true ∧ (st2.ndirty ≠ 0 ∨ st2.always = true) then
          some ⟨e.topic, e.payload.getD "", e.retain⟩
        else none) := rfl
    rw [hflt, hmapid, List.mem_filterMap] at hp
    obtain ⟨e, he, hsome⟩ := hp
    by_cases hcond : e.written = true ∧ (st2.ndirty ≠ 0 ∨ st2.always = true)
    · rw [if_pos hcond] at hsome
      have hpt : p.topic = e.topic := by
        cases hsome
        rfl
      rw [hpt]
      exact hWwr e he hcond.1
    · rw [if_neg hcond] at hsome
      cases hsome
  · -- every non-alive cached entry survives with its payload
    intro i hi hne
    have hiW : i < W.1.length := lt_of_lt_of_le hi hlenW
    set E := st.topics.getD i default with hE
    have hl2 : i < st2.topics.length := by
      rw [hmapid]
      exact hiW
    have hl3 : i < (stripW st2.topics).length := by rw [stripW_length]; exact hl2
    have hWi : W.1.getD i default = E :=
      writeEntry_getD_ne st.topics (!st.inData) _ _ i hi hne
    have hgd2 : st2.topics.getD i default = E := by
      rw [hmapid, hWi]
    rw [hfinaltopics]
    rw [show stripW (stripW st2.topics) = (stripW st2.topics).map
          (fun e => { e with written := false }) from rfl,
        getD_map_lt _ _ i default default hl3,
        show stripW st2.topics = st2.topics.map
          (fun e => { e with written := false }) from rfl,
        getD_map_lt _ _ i default default hl2, hgd2]
    exact ⟨rfl, rfl⟩

/-- A concrete state for the C7 witness, with the control tags the program
actually assigns (`ctrltopic = !in_data_sentence = true` on every entry):
port alive, the `src` topic and the `lat` data topic cached. -/
def c7st : St :=
  { topics := [
      { written := false, retain := true, ctrltopic := true,
        topic := "gps/src", payload := some "dev" },
      { written := false, retain := true, ctrltopic := true,
        topic := "gps/lat", payload := some "1.0" }],
    portalive := 1 }

/-- Claim C7 witness: at a concrete live state the timeout leaves the
cached `gps/lat` payload in place and publishes nothing but `alive`. -/
theorem c7_witness :
    c7st.portalive ≠ 0 ∧
    ((alarm_branch c7st).1.topics.getD 1 default).payload =
      (c7st.topics.getD 1 default).payload ∧
    (∀ p ∈ (alarm_branch c7st).2, p.topic = c7st.prefixStr ++ "alive") := by
  have H := c7_timeout_erases_nothing c7st (by decide) (by decide) (by decide)
    (by decide) (by decide) (by decide)
  exact ⟨by decide, (H.2.2.2 1 (by decide) (by decide)).1, H.2.2.1⟩

/-! ## Message-enable list (`nmea_use`), formatting, and the GGA/GNS handler -/

/-- Case-insensitive prefix test used by `strcasestr`. -/
def ciPrefixAt : List Char → List Char → Bool
  | [], _ => true
  | _ :: _, [] => false
  | n :: ns, h :: hs => (n.toLower == h.toLower) && ciPrefixAt ns hs

/-- Index of the first case-insensitive occurrence of `needle` in the
haystack, as `strcasestr` computes it. -/
def strcasestrIdx (needle : List Char) : List Char → Option Nat
  | [] => if needle.isEmpty then some 0 else none
  | h :: hs =>
    if ciPrefixAt needle (h :: hs) then some 0
    else (strcasestrIdx needle hs).map (fun n => n + 1)

/-- Embedding of `nmea_use_msg` (lines 212-220): find the message name in
`nmea_use` and test whether the character before it is `'+'`.  (A match at
index 0 would read before the buffer in C; it cannot happen for the real
`nmea_use` contents and is mapped to `false` here.) -/
def nmea_use_msg (use : List Char) (msg : String) : Bool :=
  match strcasestrIdx msg.data use with
  | none => false
  | some 0 => false
  | some (i + 1) => use.getD i ' ' == '+'

/-- The absolute-mode reset of `merge_nmea_use` (lines 226-230): write `'-'`
at every 5th position (`str += 5` over `±xxx,` groups). -/
def setMinusStride (cs : List Char) : List Char :=
  cs.enum.map (fun p => if p.1 % 5 = 0 then '-' else p.2)

/-- One `strtok` token of `merge_nmea_use` (lines 231-240): strip an
optional sign (default `'+'`), find the name in `use`, and overwrite the
character before the match. -/
def applyTok (use : List Char) (tok : String) : List Char :=
  let md : Char := match tok.data with
    | '+' :: _ => '+'
    | '-' :: _ => '-'
    | _ => '+'
  let body : List Char := match tok.data with
    | '+' :: r => r
    | '-' :: r => r
    | r => r
  match strcasestrIdx body use with
  | some (i + 1) => use.set i md
  | _ => use

/-- Comma tokenizer (structural stand-in for `strtok(s, ",")` before the
empty tokens are dropped). -/
def splitCommaAux (cur : List Char) : List Char → List (List Char)
  | [] => [cur.reverse]
  | c :: r => if c = ',' then cur.reverse :: splitCommaAux [] r
              else splitCommaAux (c :: cur) r

def splitComma (cs : List Char) : List (List Char) := splitCommaAux [] cs

/-- Embedding of `merge_nmea_use` (lines 221-241); `strtok` skips empty
tokens. -/
def merge_nmea_use (use : List Char) (payload : String) : List Char :=
  let use0 := match payload.data with
    | '+' :: _ => use
    | '-' :: _ => use
    | _ => setMinusStride use
  (((splitComma payload.data).map String.mk).filter (fun t => t ≠ "")).foldl
    applyTok use0

/-- Zero padding for the fractional part of a fixed-point print. -/
def padZeros (n : Nat) (s : String) : String :=
  String.mk (List.replicate (n - s.length) '0') ++ s

/-- Deterministic model of `printf("%.<p>lf", ·)`: `none` (NaN) prints as
`"nan"`; otherwise round to `p` decimals and print with a fixed number of
fractional digits. -/
def fmtQ (p : Nat) : Option ℚ → String
  | none => "nan"
  | some q =>
    let n : Int := ⌊(if q < 0 then -q else q) * (10 : ℚ) ^ p + 1 / 2⌋
    let scale : Int := (10 : Int) ^ p
    (if q < 0 then "-" else "") ++ toString (n / scale) ++
      (if p = 0 then "" else "." ++ padZeros p (toString (n % scale)))

/-- The `strquality` table (lines 186-196). -/
def strquality : List String :=
  ["none", "gps", "dgps", "pps", "rtk", "float-rtk", "estimated", "manual input",
   "simulation"]

/-- The `fromtable` macro (line 203): an index outside `0..8` (negative
indices convert to huge `size_t` values) yields NULL. -/
def fromtableQ (idx : Int) : Option String :=
  if 0 ≤ idx ∧ idx < 9 then some (strquality.getD idx.toNat "") else none

/-- Unsigned 64-bit value of a `strtoul` result. -/
def wrap64core (neg : Bool) (dv : Nat) : Nat :=
  if neg then (2 ^ 64 - min dv (2 ^ 64 - 1)) % 2 ^ 64 else min dv (2 ^ 64 - 1)

/-- Conversion of an unsigned 64-bit value to a C `int` (wrap to 32 bits). -/
def toInt32 (n : Nat) : Int :=
  let m : Nat := n % 2 ^ 32
  if m < 2 ^ 31 then (m : Int) else (m : Int) - 2 ^ 32

/-- Model of `(int)strtoul(s, NULL, 10)`: optional sign applied in unsigned
arithmetic, saturation at `ULONG_MAX`, then implementation-defined (wrap)
conversion to `int`. -/
def strtoulI (s : String) : Int :=
  let cs := skipSpace s.data
  let neg : Bool := cs.headD ' ' == '-'
  let cs1 := if cs.headD ' ' == '-' || cs.headD ' ' == '+' then cs.drop 1 else cs
  toInt32 (wrap64core neg (digitsToNat (spanDigits cs1).1))

/-- Positional access to the fields of an NMEA sentence after its address
token: `nmea_safe_tok` returns `""` both for an empty field and past the
end of the sentence. -/
def fieldAt (fs : List String) (i : Nat) : String := fs.getD i ""

/-- `nmea_tok(NULL) ?: d`: an empty or missing field falls back to `d`
(`nmea_tok` returns NULL for empty tokens). -/
def tokOr (fs : List String) (i : Nat) (d : String) : String :=
  if fieldAt fs i = "" then d else fieldAt fs i

/-- Dereferencing the first character of a C string (NUL when empty). -/
def firstCharD (s : String) : Char := s.data.headD '\x00'

/-- Case-insensitive string equality, as `strcasecmp(...) == 0`. -/
def strcasecmpEq (a b : String) : Bool :=
  a.data.map Char.toLower == b.data.map Char.toLower

/-- The `gns_modes` table (line 540). -/
def gns_modes : List Char := "NADPRFEMS".data

/-- Position of a character in a character list, as `strchr` computes it. -/
def strchrIdx (c : Char) : List Char → Option Nat
  | [] => none
  | x :: xs => if x = c then some 0 else (strchrIdx c xs).map (fun n => n + 1)

/-- The fixed GNS talker order (lines 541-547). -/
def gnsTalkers : List String := ["gp", "gl", "gb", "ga"]

/-- Embedding of `satuse_updated` (lines 670-695): talker `gn` latches
`gn_satuse_emitted`; otherwise find-or-create the talker's gsv record and,
when the value changed (or `always`), store it and publish the aggregated
`gn/satuse` (cached retained). -/
def satuse_updated (st : St) (tal : String) (su : Int) : St × List Pub :=
  if tal = "gn" then ({ st with gn_satuse_emitted := true }, [])
  else if st.gn_satuse_emitted = true then (st, [])
  else
    match st.gsvs.find? (fun g => g.talker == tal) with
    | some g =>
      if st.always = true ∨ g.satuse ≠ su then
        let gl := st.gsvs.map (fun x => if x.talker == tal then { x with satuse := su } else x)
        publish_topicrt { st with gsvs := gl } (some "gn") "satuse" true true false
          (some (toString (gl.foldl (fun a x => a + x.satuse) 0)))
      else (st, [])
    | none =>
      if st.always = true ∨ (0 : Int) ≠ su then
        let gl := st.gsvs ++ [{ mkGsv tal with satuse := su }]
        publish_topicrt { st with gsvs := gl } (some "gn") "satuse" true true false
          (some (toString (gl.foldl (fun a x => a + x.satuse) 0)))
      else ({ st with gsvs := st.gsvs ++ [mkGsv tal] }, [])

/-- The per-talker GNS mode loop (lines 552-558): pair characters of the
mode field with the fixed talkers while both remain. -/
def gnsModesLoop (st : St) : List Char → List String → St × List Pub
  | c :: cs, t :: ts =>
    let ival : Int := match strchrIdx c.toUpper gns_modes with
      | some i => (i : Int)
      | none => 0
    let r1 := publish_topicrt st (some t) "mode" true false false
      (some ((fromtableQ ival).getD ""))
    let r2 := gnsModesLoop r1.1 cs ts
    (r2.1, r1.2 ++ r2.2)
  | _, _ => (st, [])

/-- Embedding of `recvd_gga_gns` (lines 515-582).  `code` is `msg+2`
(`"GGA"` or `"GNS"`); `fs` are the sentence fields after the address token.
Note the hdop guard: the code publishes `hdop` when GSA IS enabled
(`if (nmea_use_msg("GSA"))`), although its own comment says the opposite. -/
def recvd_gga_gns (st : St) (code : String) (fs : List String) : St × List Pub :=
  let lat0 := nmea_deg_to_double (fieldAt fs 1)
  let lat1 := if firstCharD (fieldAt fs 2) = 'S' then lat0.map (fun q => -q) else lat0
  let r1 := publish_topicrt st (some st.talker) "lat" true false false (some (fmtQ 7 lat1))
  let lon0 := nmea_deg_to_double (fieldAt fs 3)
  let lon1 := if firstCharD (fieldAt fs 4) = 'W' then lon0.map (fun q => -q) else lon0
  let r2 := publish_topicrt r1.1 (some st.talker) "lon" true false false (some (fmtQ 7 lon1))
  let r3 :=
    if strcasecmpEq code "GGA" = true then
      publish_topicrt r2.1 (some st.talker) "quality" true false false
        (some ((fromtableQ (strtoulI (fieldAt fs 5))).getD ""))
    else
      gnsModesLoop r2.1 (fieldAt fs 5).data gnsTalkers
  let su := strtoulI (fieldAt fs 6)
  let r4 := publish_topicrt r3.1 (some st.talker) "satuse" true true false
    (some (toString su))
  let r5 := satuse_updated r4.1 st.talker su
  let r6 :=
    if nmea_use_msg st.nmea_use "GSA" = true then
      publish_topicrt r5.1 (some st.talker) "hdop" true false false
        (some (fmtQ 1 (nmea_strtodO (fieldAt fs 7))))
    else (r5.1, ([] : List Pub))
  let r7 := publish_topicrt r6.1 (some st.talker) "alt" true false false
    (some (fmtQ 1 (nmea_strtodO (fieldAt fs 8))))
  let r8 := publish_topicrt r7.1 (some st.talker) "geoid" true false false
    (some (fmtQ 1 (nmea_strtodO (fieldAt fs 10))))
  let dix : Nat := if strcasecmpEq code "GGA" = true then 12 else 11
  let r9 := publish_topicrt r8.1 (some st.talker) "diff/age" true false false
    (some (fieldAt fs dix))
  let r10 := publish_topicrt r9.1 (some st.talker) "diff/id" true false false
    (some (fieldAt fs (dix + 1)))
  (r10.1, r1.2 ++ r2.2 ++ r3.2 ++ r4.2 ++ r5.2 ++ r6.2 ++ r7.2 ++ r8.2 ++ r9.2 ++ r10.2)

/-- Ingesting one enabled GGA sentence: the handler followed by the
coherent flush, as `recvd_line` does (lines 914-924). -/
def ingestGGA (st : St) (fs : List String) : St × List Pub :=
  let r1 := recvd_gga_gns st "GGA" fs
  let r2 := flush_pending_topics r1.1
  (r2.1, r1.2 ++ r2.2)

/-! ## Claim C2: the hdop gate in the GGA/GNS handler -/

/-- A GGA sentence with all fields empty (field values are irrelevant to
which topics the handler touches). -/
def c2fields : List String := ["", "", "", "", "", "", "", "", "", "", "", "", "", ""]

/-- `nmea_use` with GSA enabled. -/
def c2useOn : List Char := "+gga,-gns,+gsa,-gsv,+vtg,+zda".data

/-- Claim C2 (code bug): the claim — matching the comment in the source,
"publish hdop from GGA only if GSA is not used" — says the GGA/GNS handler
publishes `hdop` iff GSA is NOT enabled.  The code's guard is
`if (nmea_use_msg("GSA"))`, i.e. inverted: with GSA disabled (the default)
no `hdop` cache entry is produced, and with GSA enabled one is. -/
theorem c2_hdop_gate_inverted :
    (nmea_use_msg ("+gga,-gns,-gsa,-gsv,+vtg,+zda".data) "GSA" = false ∧
      ((recvd_gga_gns { talker := "gp" } "GGA" c2fields).1.topics.map
        (fun e => e.topic)).contains "gps/hdop" = false) ∧
    (nmea_use_msg c2useOn "GSA" = true ∧
      ((recvd_gga_gns { talker := "gp", nmea_use := c2useOn } "GGA" c2fields).1.topics.map
        (fun e => e.topic)).contains "gps/hdop" = true) := by decide

/-! ## Claim C6: re-ingesting an identical GGA sentence publishes nothing -/

/-- The payload the cache would print for a topic (`payload ?: ""`), or
`none` when the topic is not cached. -/
def payOr : List TopicEntry → String → Option String
  | [], _ => none
  | e :: es, t => if e.topic = t then some (e.payload.getD "") else payOr es t

/-- Mark the first entry of a topic as written (the no-change path of
`publish_cache`). -/
def markFirst : List TopicEntry → String → List TopicEntry
  | [], _ => []
  | e :: es, t =>
    if e.topic = t then { e with written := true } :: es else e :: markFirst es t

/-- One cached write at the state level. -/
def cacheW (st : St) (t v : String) : St :=
  { st with
      topics := (writeEntry st.topics (!st.inData) t v).1
      ndirty := st.ndirty + (writeEntry st.topics (!st.inData) t v).2 }

/-- A sequence of cached writes. -/
def foldWrites (st : St) (ws : List (String × String)) : St :=
  ws.foldl (fun s w => cacheW s w.1 w.2) st

/-- Mark a sequence of topics as written. -/
def markList (es : List TopicEntry) (ts : List String) : List TopicEntry :=
  ts.foldl markFirst es

/-- The value of the last write to a topic in a write sequence. -/
def wsLast : List (String × String) → String → Option String
  | [], _ => none
  | w :: ws, s =>
    match wsLast ws s with
    | some v => some v
    | none => if s = w.1 then some w.2 else none

theorem writeEntry_payOr (es : List TopicEntry) (c : Bool) (t v s : String) :
    payOr (writeEntry es c t v).1 s = if s = t then some v else payOr es s := by
  induction es with
  | nil =>
    by_cases hst : s = t
    · subst hst
      by_cases hv : v = "" <;> simp [writeEntry, payOr, hv]
    · have hts : t ≠ s := fun hh => hst hh.symm
      simp [writeEntry, payOr, hst, hts]
  | cons e es ih =>
    by_cases h : e.topic = t
    · by_cases hst : s = t
      · subst hst
        by_cases hP : e.payload.getD "" = v
        · simp [writeEntry, h, payOr, hP]
        · simp [writeEntry, h, payOr, hP]
      · have hts : t ≠ s := fun hh => hst hh.symm
        simp [writeEntry, h, payOr, hts, hst]
    · by_cases hes : e.topic = s
      · have hst : s ≠ t := fun hh => h (hes.trans hh)
        simp [writeEntry, h, payOr, hes, hst]
      · simp [writeEntry, h, payOr, hes, ih]

/-- Writing a value the cache already holds only marks the entry written:
no payload change, no dirty increment. -/
theorem writeEntry_stable (es : List TopicEntry) (c : Bool) (t v : String)
    (h : payOr es t = some v) : writeEntry es c t v = (markFirst es t, 0) := by
  induction es with
  | nil => simp [payOr] at h
  | cons e es ih =>
    by_cases he : e.topic = t
    · have hval : e.payload.getD "" = v := by
        simpa [payOr, he] using h
      simp [writeEntry, he, markFirst, hval]
    · have h' : payOr es t = some v := by simpa [payOr, he] using h
      simp [writeEntry, he, markFirst, ih h']

theorem payOr_markFirst (es : List TopicEntry) (t0 s : String) :
    payOr (markFirst es t0) s = payOr es s := by
  induction es with
  | nil => simp [markFirst]
  | cons e es ih =>
    by_cases he : e.topic = t0
    · simp [markFirst, he, payOr]
    · simp [markFirst, he, payOr, ih]

theorem stripW_markFirst (es : List TopicEntry) (t : String) :
    stripW (markFirst es t) = stripW es := by
  induction es with
  | nil => simp [markFirst]
  | cons e es ih =>
    by_cases he : e.topic = t
    · simp [markFirst, he, stripW]
    · simp [markFirst, he, stripW] at ih ⊢
      exact ih

theorem payOr_stripW (es : List TopicEntry) (s : String) :
    payOr (stripW es) s = payOr es s := by
  induction es with
  | nil => simp [stripW]
  | cons e es ih =>
    by_cases he : e.topic = s
    · simp [stripW, payOr, he]
    · simp [stripW, payOr, he] at ih ⊢
      exact ih

theorem stripW_idem (es : List TopicEntry) : stripW (stripW es) = stripW es := by
  simp [stripW]

theorem stripW_markList (es : List TopicEntry) (ts : List String) :
    stripW (markList es ts) = stripW es := by
  induction ts generalizing es with
  | nil => rfl
  | cons t ts ih =>
    show stripW (markList (markFirst es t) ts) = stripW es
    rw [ih, stripW_markFirst]

theorem payOr_markList (es : List TopicEntry) (ts : List String) (s : String) :
    payOr (markList es ts) s = payOr es s := by
  induction ts generalizing es with
  | nil => rfl
  | cons t ts ih =>
    show payOr (markList (markFirst es t) ts) s = payOr es s
    rw [ih, payOr_markFirst]

/-- A cached write of an already-cached value at the state level. -/
theorem cacheW_stable (st : St) (t v : String) (h : payOr st.topics t = some v) :
    cacheW st t v = { st with topics := markFirst st.topics t } := by
  simp [cacheW, writeEntry_stable _ _ _ _ h]

theorem foldWrites_append (st : St) (a b : List (String × String)) :
    foldWrites st (a ++ b) = foldWrites (foldWrites st a) b := by
  simp [foldWrites, List.foldl_append]

/-- Replaying writes whose values the cache already holds does not change
anything but `written` flags. -/
theorem foldWrites_stable (ws : List (String × String)) : ∀ st : St,
    (∀ w ∈ ws, payOr st.topics w.1 = some w.2) →
    foldWrites st ws = { st with topics := markList st.topics (ws.map Prod.fst) } := by
  induction ws with
  | nil => intro st _; rfl
  | cons w ws ih =>
    intro st h
    have h0 : payOr st.topics w.1 = some w.2 := h w (by simp)
    have hrest : ∀ w' ∈ ws,
        payOr ({ st with topics := markFirst st.topics w.1 } : St).topics w'.1 = some w'.2 := by
      intro w' hw'
      show payOr (markFirst st.topics w.1) w'.1 = some w'.2
      rw [payOr_markFirst]
      exact h w' (by simp [hw'])
    show foldWrites (cacheW st w.1 w.2) ws = _
    rw [cacheW_stable st w.1 w.2 h0, ih _ hrest]
    rfl

/-- After a write sequence, a topic's cached value is the last value written
to it, or its previous value. -/
theorem foldWrites_payOr (ws : List (String × String)) : ∀ (st : St) (s : String),
    payOr (foldWrites st ws).topics s =
      (match wsLast ws s with
       | some v => some v
       | none => payOr st.topics s) := by
  induction ws with
  | nil => intro st s; rfl
  | cons w ws ih =>
    intro st s
    show payOr (foldWrites (cacheW st w.1 w.2) ws).topics s = _
    rw [ih]
    have hc : payOr (cacheW st w.1 w.2).topics s =
        if s = w.1 then some w.2 else payOr st.topics s := by
      show payOr (writeEntry st.topics (!st.inData) w.1 w.2).1 s = _
      exact writeEntry_payOr _ _ _ _ _
    cases hws : wsLast ws s with
    | some v => simp [wsLast, hws]
    | none =>
      rw [hc]
      by_cases hsw : s = w.1
      · subst hsw
        simp [wsLast, hws]
      · simp [wsLast, hws, hsw]

/-- The flush publishes nothing when nothing is dirty and `always` is off. -/
theorem flush_nopub (st : St) (h1 : st.ndirty = 0) (h2 : st.always = false) :
    (flush_pending_topics st).2 = [] := by
  simp [flush_pending_topics, h1, h2]

@[simp] theorem cacheW_always (st : St) (t v : String) : (cacheW st t v).always = st.always := rfl

@[simp] theorem cacheW_inData (st : St) (t v : String) : (cacheW st t v).inData = st.inData := rfl

@[simp] theorem cacheW_nmea_use (st : St) (t v : String) : (cacheW st t v).nmea_use = st.nmea_use := rfl

@[simp] theorem cacheW_def_talker (st : St) (t v : String) : (cacheW st t v).def_talker = st.def_talker := rfl

@[simp] theorem cacheW_def_talker_mqtt (st : St) (t v : String) : (cacheW st t v).def_talker_mqtt = st.def_talker_mqtt := rfl

@[simp] theorem cacheW_prefixStr (st : St) (t v : String) : (cacheW st t v).prefixStr = st.prefixStr := rfl

@[simp] theorem cacheW_talker (st : St) (t v : String) : (cacheW st t v).talker = st.talker := rfl

@[simp] theorem cacheW_gsvs (st : St) (t v : String) : (cacheW st t v).gsvs = st.gsvs := rfl

@[simp] theorem cacheW_gn_emitted (st : St) (t v : String) : (cacheW st t v).gn_satuse_emitted = st.gn_satuse_emitted := rfl

@[simp] theorem realtopic_cacheW (st : St) (t v : String) (tal : Option String)
    (ign : Bool) (topic : String) :
    realtopic (cacheW st t v) tal ign topic = realtopic st tal ign topic := rfl

/-- A cached or skipped `satuse_updated` call never publishes immediately
(its only publish is a cached retained `gn/satuse`). -/
theorem satuse_pubs (st : St) (tal : String) (su : Int) :
    (satuse_updated st tal su).2 = [] := by
  unfold satuse_updated
  split
  · rfl
  · split
    · rfl
    · split
      · split
        · simp [publish_cached]
        · rfl
      · split
        · simp [publish_cached]
        · rfl

/-- `satuse_updated` only touches `gsvs` and `gn_satuse_emitted`. -/
theorem satuse_fields (st : St) (tal : String) (su : Int) :
    (satuse_updated st tal su).1.always = st.always ∧
    (satuse_updated st tal su).1.inData = st.inData ∧
    (satuse_updated st tal su).1.nmea_use = st.nmea_use ∧
    (satuse_updated st tal su).1.def_talker = st.def_talker ∧
    (satuse_updated st tal su).1.def_talker_mqtt = st.def_talker_mqtt ∧
    (satuse_updated st tal su).1.prefixStr = st.prefixStr ∧
    (satuse_updated st tal su).1.talker = st.talker := by
  unfold satuse_updated
  split
  · exact ⟨rfl, rfl, rfl, rfl, rfl, rfl, rfl⟩
  · split
    · exact ⟨rfl, rfl, rfl, rfl, rfl, rfl, rfl⟩
    · split
      · split
        · simp [publish_cached]
        · exact ⟨rfl, rfl, rfl, rfl, rfl, rfl, rfl⟩
      · split
        · simp [publish_cached]
        · exact ⟨rfl, rfl, rfl, rfl, rfl, rfl, rfl⟩

@[simp] theorem realtopic_satuse (st : St) (tal0 : String) (su : Int)
    (tal : Option String) (ign : Bool) (topic : String) :
    realtopic (satuse_updated st tal0 su).1 tal ign topic = realtopic st tal ign topic := by
  obtain ⟨-, -, -, h4, h5, h6, -⟩ := satuse_fields st tal0 su
  cases tal with
  | none => simp [realtopic, h6]
  | some t => simp [realtopic, effDef, h4, h5, h6]

/-- A projection unchanged by single cached writes is unchanged by write
sequences. -/
theorem foldWrites_proj {α : Type} (f : St → α)
    (hf : ∀ (st : St) (t v : String), f (cacheW st t v) = f st)
    (ws : List (String × String)) : ∀ st : St, f (foldWrites st ws) = f st := by
  induction ws with
  | nil => intro st; rfl
  | cons w ws ih =>
    intro st
    show f (foldWrites (cacheW st w.1 w.2) ws) = f st
    rw [ih, hf]

/-- The write plan of the GGA branch before `satuse_updated`, for the
default configuration (talker `gp`, prefix `gps/`, default talker `gp`). -/
def ggaW1 (fs : List String) : List (String × String) :=
  [("gps/lat", nanFix (fmtQ 7 (if firstCharD (fieldAt fs 2) = 'S'
      then (nmea_deg_to_double (fieldAt fs 1)).map (fun q => -q)
      else nmea_deg_to_double (fieldAt fs 1)))),
   ("gps/lon", nanFix (fmtQ 7 (if firstCharD (fieldAt fs 4) = 'W'
      then (nmea_deg_to_double (fieldAt fs 3)).map (fun q => -q)
      else nmea_deg_to_double (fieldAt fs 3)))),
   ("gps/quality", nanFix ((fromtableQ (strtoulI (fieldAt fs 5))).getD "")),
   ("gps/gp/satuse", nanFix (toString (strtoulI (fieldAt fs 6))))]

/-- The write plan of the GGA branch after `satuse_updated` (hdop is absent:
GSA is disabled in the default configuration, and the code publishes hdop
only when GSA is enabled). -/
def ggaW2 (fs : List String) : List (String × String) :=
  [("gps/alt", nanFix (fmtQ 1 (nmea_strtodO (fieldAt fs 8)))),
   ("gps/geoid", nanFix (fmtQ 1 (nmea_strtodO (fieldAt fs 10)))),
   ("gps/diff/age", nanFix (fieldAt fs 12)),
   ("gps/diff/id", nanFix (fieldAt fs 13))]

theorem strcase_gga : strcasecmpEq "GGA" "GGA" = true := by decide

theorem gsa_off_default :
    nmea_use_msg ['+', 'g', 'g', 'a', ',', '-', 'g', 'n', 's', ',', '-', 'g', 's', 'a', ',',
      '-', 'g', 's', 'v', ',', '+', 'v', 't', 'g', ',', '+', 'z', 'd', 'a'] "GSA" = false := by
  decide

/-- The cached-publish reduction, stated through `cacheW`. -/
theorem publish_cachedW (st : St) (tal : Option String) (topic : String) (ign : Bool)
    (v : String) :
    publish_topicrt st tal topic true ign false (some v) =
      (cacheW st (realtopic st tal ign topic) (nanFix v), []) :=
  publish_cached st tal topic ign v

/-- The GGA handler, under the default configuration, is exactly the write
plan `ggaW1`, then `satuse_updated`, then `ggaW2`, with no immediate
publishes. -/
theorem gga_c6_normal (st : St) (fs : List String)
    (ht : st.talker = "gp") (hp : st.prefixStr = "gps/") (hd : st.def_talker = "gp")
    (hm : st.def_talker_mqtt = none)
    (hu : st.nmea_use = "+gga,-gns,-gsa,-gsv,+vtg,+zda".data) :
    recvd_gga_gns st "GGA" fs =
      (foldWrites (satuse_updated (foldWrites st (ggaW1 fs)) "gp"
          (strtoulI (fieldAt fs 6))).1 (ggaW2 fs), []) := by
  have hrt : ∀ topic : String, realtopic st (some "gp") false topic = "gps/" ++ topic := by
    intro topic
    simp [realtopic, effDef, hm, hd, hp]
  have hrt2 : realtopic st (some "gp") true "satuse" = "gps/gp/satuse" := by
    simp [realtopic, hp]
  have a1 : "gps/" ++ "lat" = "gps/lat" := rfl
  have a2 : "gps/" ++ "lon" = "gps/lon" := rfl
  have a3 : "gps/" ++ "quality" = "gps/quality" := rfl
  have a4 : "gps/" ++ "alt" = "gps/alt" := rfl
  have a5 : "gps/" ++ "geoid" = "gps/geoid" := rfl
  have a6 : "gps/" ++ "diff/age" = "gps/diff/age" := rfl
  have a7 : "gps/" ++ "diff/id" = "gps/diff/id" := rfl
  simp only [recvd_gga_gns, ht, hu, publish_cachedW, strcase_gga, gsa_off_default,
    if_true, if_false, ite_true, ite_false, Bool.false_eq_true, realtopic_cacheW,
    realtopic_satuse, hrt, hrt2, a1, a2, a3, a4, a5, a6, a7, satuse_pubs,
    List.append_nil, List.nil_append, ggaW1, ggaW2, foldWrites, List.foldl]

/-- For any talker other than `gn`, `satuse_updated` leaves the
`gn_satuse_emitted` latch alone. -/
theorem satuse_gn_emitted (st : St) (tal : String) (su : Int) (h : tal ≠ "gn") :
    (satuse_updated st tal su).1.gn_satuse_emitted = st.gn_satuse_emitted := by
  unfold satuse_updated
  rw [if_neg h]
  split
  · rfl
  · split
    · split
      · simp [publish_cached]
      · rfl
    · split
      · simp [publish_cached]
      · rfl

/-- First GGA for talker `gp` with no tracked talkers: a fresh gsv record is
created holding the received `satuse`. -/
theorem satuse_gsvs_nil (st : St) (su : Int) (h : st.gsvs = [])
    (he : st.gn_satuse_emitted = false) (ha : st.always = false) :
    (satuse_updated st "gp" su).1.gsvs = [{ mkGsv "gp" with satuse := su }] := by
  unfold satuse_updated
  rw [if_neg (by decide : ¬("gp" : String) = "gn")]
  rw [if_neg (by simp [he] : ¬st.gn_satuse_emitted = true)]
  rw [h]
  simp only [List.find?]
  by_cases hz : su = 0
  · rw [if_neg (by simp [ha, hz] : ¬(st.always = true ∨ (0 : Int) ≠ su))]
    simp [mkGsv, hz]
  · rw [if_pos (Or.inr (by omega : (0 : Int) ≠ su))]
    rw [publish_cachedW]
    simp

/-- A repeated GGA whose `satuse` equals the stored one is a no-op of
`satuse_updated`. -/
theorem satuse_skip (st : St) (su : Int) (g : Gsv) (hg : st.gsvs = [g])
    (htal : g.talker = "gp") (hsu : g.satuse = su)
    (he : st.gn_satuse_emitted = false) (ha : st.always = false) :
    satuse_updated st "gp" su = (st, []) := by
  unfold satuse_updated
  rw [if_neg (by decide : ¬("gp" : String) = "gn")]
  rw [if_neg (by simp [he] : ¬st.gn_satuse_emitted = true)]
  rw [hg]
  have hfind : List.find? (fun g => g.talker == "gp") [g] = some g := by
    simp [List.find?, htal]
  rw [hfind]
  simp [ha, hsu]

/-- `satuse_updated` leaves every cached topic other than the aggregated
`gn/satuse` untouched. -/
theorem satuse_payOr_ne (st : St) (tal : String) (su : Int) (s : String)
    (hs : s ≠ realtopic st (some "gn") true "satuse") :
    payOr (satuse_updated st tal su).1.topics s = payOr st.topics s := by
  unfold satuse_updated
  split
  · rfl
  · split
    · rfl
    · split
      · split
        · rw [publish_cachedW]
          show payOr (writeEntry _ _ _ _).1 s = _
          rw [writeEntry_payOr]
          rw [if_neg (by exact hs)]
        · rfl
      · split
        · rw [publish_cachedW]
          show payOr (writeEntry _ _ _ _).1 s = _
          rw [writeEntry_payOr]
          rw [if_neg (by exact hs)]
        · rfl

/-- `realtopic` is unchanged by a write sequence. -/
theorem realtopic_foldWrites (ws : List (String × String)) (st : St)
    (tal : Option String) (ign : Bool) (topic : String) :
    realtopic (foldWrites st ws) tal ign topic = realtopic st tal ign topic :=
  foldWrites_proj (fun s => realtopic s tal ign topic) (fun _ _ _ => rfl) ws st

attribute [ext] St

/-- Flushing after merely re-marking topics of an already-flushed state
restores that state. -/
theorem reflush (Y : St) (L : List String) :
    (flush_pending_topics ({ (flush_pending_topics Y).1 with
        topics := markList (flush_pending_topics Y).1.topics L } : St)).1 =
      (flush_pending_topics Y).1 := by
  show ({ (flush_pending_topics Y).1 with
      topics := stripW (markList (flush_pending_topics Y).1.topics L)
      ndirty := 0 } : St) = (flush_pending_topics Y).1
  rw [show ((flush_pending_topics Y).1.topics) = stripW Y.topics from rfl]
  rw [stripW_markList, stripW_idem]
  rfl

/-- Flushing after merely re-marking topics of an already-flushed state
publishes nothing when `always` is off. -/
theorem reflush_pubs (Y : St) (L : List String) (halw : Y.always = false) :
    (flush_pending_topics ({ (flush_pending_topics Y).1 with
        topics := markList (flush_pending_topics Y).1.topics L } : St)).2 = [] :=
  flush_nopub _ rfl halw

set_option maxHeartbeats 2000000 in
/-- Claim C6: with `always = false`, ingesting a valid GGA sentence from the
start state and then re-ingesting the identical sentence leaves the whole
state — in particular every cached topic payload — unchanged and performs
zero MQTT publishes on the second ingestion: all rewrites hit equal cached
values, so `ndirty` stays 0 and the coherent flush publishes nothing.  The
initial cache contents `ts` and dirty counter `nd` are arbitrary. -/
theorem c6_idempotent_reingest (ts : List TopicEntry) (nd : Nat) (fs : List String) :
    ingestGGA (ingestGGA { topics := ts, ndirty := nd, talker := "gp" } fs).1 fs =
      ((ingestGGA { topics := ts, ndirty := nd, talker := "gp" } fs).1, []) := by
  set st0 : St := { topics := ts, ndirty := nd, talker := "gp" } with hst0
  set su : Int := strtoulI (fieldAt fs 6) with hsu
  have hN1 := gga_c6_normal st0 fs rfl rfl rfl rfl rfl
  set X1 : St := foldWrites (satuse_updated (foldWrites st0 (ggaW1 fs)) "gp" su).1
    (ggaW2 fs) with hX1
  have hI1 : ingestGGA st0 fs =
      ((flush_pending_topics X1).1, [] ++ (flush_pending_topics X1).2) := by
    simp only [ingestGGA, hN1]
  obtain ⟨hfA, hfI, hfU, hfD, hfM, hfP, hfT⟩ :=
    satuse_fields (foldWrites st0 (ggaW1 fs)) "gp" su
  have hgsvsX0 : (foldWrites st0 (ggaW1 fs)).gsvs = [] :=
    (foldWrites_proj (fun s => s.gsvs) (fun _ _ _ => rfl) (ggaW1 fs) st0).trans rfl
  have hgnX0 : (foldWrites st0 (ggaW1 fs)).gn_satuse_emitted = false :=
    (foldWrites_proj (fun s => s.gn_satuse_emitted) (fun _ _ _ => rfl) (ggaW1 fs) st0).trans rfl
  have haX0 : (foldWrites st0 (ggaW1 fs)).always = false :=
    (foldWrites_proj (fun s => s.always) (fun _ _ _ => rfl) (ggaW1 fs) st0).trans rfl
  have hSUgsvs := satuse_gsvs_nil (foldWrites st0 (ggaW1 fs)) su hgsvsX0 hgnX0 haX0
  have hst1t : (flush_pending_topics X1).1.talker = "gp" := by
    show X1.talker = "gp"
    rw [hX1, foldWrites_proj (fun s => s.talker) (fun _ _ _ => rfl), hfT,
        foldWrites_proj (fun s => s.talker) (fun _ _ _ => rfl)]
  have hst1p : (flush_pending_topics X1).1.prefixStr = "gps/" := by
    show X1.prefixStr = "gps/"
    rw [hX1, foldWrites_proj (fun s => s.prefixStr) (fun _ _ _ => rfl), hfP,
        foldWrites_proj (fun s => s.prefixStr) (fun _ _ _ => rfl)]
  have hst1d : (flush_pending_topics X1).1.def_talker = "gp" := by
    show X1.def_talker = "gp"
    rw [hX1, foldWrites_proj (fun s => s.def_talker) (fun _ _ _ => rfl), hfD,
        foldWrites_proj (fun s => s.def_talker) (fun _ _ _ => rfl)]
  have hst1m : (flush_pending_topics X1).1.def_talker_mqtt = none := by
    show X1.def_talker_mqtt = none
    rw [hX1, foldWrites_proj (fun s => s.def_talker_mqtt) (fun _ _ _ => rfl), hfM,
        foldWrites_proj (fun s => s.def_talker_mqtt) (fun _ _ _ => rfl)]
  have hst1u : (flush_pending_topics X1).1.nmea_use = "+gga,-gns,-gsa,-gsv,+vtg,+zda".data := by
    show X1.nmea_use = _
    rw [hX1, foldWrites_proj (fun s => s.nmea_use) (fun _ _ _ => rfl), hfU,
        foldWrites_proj (fun s => s.nmea_use) (fun _ _ _ => rfl)]
  have hst1a : (flush_pending_topics X1).1.always = false := by
    show X1.always = false
    rw [hX1, foldWrites_proj (fun s => s.always) (fun _ _ _ => rfl), hfA, haX0]
  have hst1g : (flush_pending_topics X1).1.gsvs = [{ mkGsv "gp" with satuse := su }] := by
    show X1.gsvs = _
    rw [hX1, foldWrites_proj (fun s => s.gsvs) (fun _ _ _ => rfl), hSUgsvs]
  have hst1gn : (flush_pending_topics X1).1.gn_satuse_emitted = false := by
    show X1.gn_satuse_emitted = false
    rw [hX1, foldWrites_proj (fun s => s.gn_satuse_emitted) (fun _ _ _ => rfl),
        satuse_gn_emitted _ "gp" su (by decide), hgnX0]
  have hN2 := gga_c6_normal (flush_pending_topics X1).1 fs hst1t hst1p hst1d hst1m hst1u
  have hX0'gsvs : (foldWrites (flush_pending_topics X1).1 (ggaW1 fs)).gsvs =
      [{ mkGsv "gp" with satuse := su }] :=
    (foldWrites_proj (fun s => s.gsvs) (fun _ _ _ => rfl) (ggaW1 fs) _).trans hst1g
  have hX0'gn : (foldWrites (flush_pending_topics X1).1 (ggaW1 fs)).gn_satuse_emitted = false :=
    (foldWrites_proj (fun s => s.gn_satuse_emitted) (fun _ _ _ => rfl) (ggaW1 fs) _).trans hst1gn
  have hX0'a : (foldWrites (flush_pending_topics X1).1 (ggaW1 fs)).always = false :=
    (foldWrites_proj (fun s => s.always) (fun _ _ _ => rfl) (ggaW1 fs) _).trans hst1a
  have hskip : satuse_updated (foldWrites (flush_pending_topics X1).1 (ggaW1 fs)) "gp" su =
      (foldWrites (flush_pending_topics X1).1 (ggaW1 fs), []) :=
    satuse_skip _ su _ hX0'gsvs rfl rfl hX0'gn hX0'a
  have hP2 : recvd_gga_gns (flush_pending_topics X1).1 "GGA" fs =
      (foldWrites (flush_pending_topics X1).1 (ggaW1 fs ++ ggaW2 fs), []) := by
    rw [hN2, hskip, foldWrites_append]
  have hPO : ∀ s : String, payOr (flush_pending_topics X1).1.topics s = payOr X1.topics s :=
    fun s => payOr_stripW X1.topics s
  have hrt0 : realtopic st0 (some "gn") true "satuse" = "gps/gn/satuse" := rfl
  have hgnne : ∀ s : String, s ≠ "gps/gn/satuse" →
      payOr (satuse_updated (foldWrites st0 (ggaW1 fs)) "gp" su).1.topics s =
      payOr (foldWrites st0 (ggaW1 fs)).topics s := by
    intro s hsne
    apply satuse_payOr_ne
    rw [realtopic_foldWrites, hrt0]
    exact hsne
  have Hpay : ∀ w ∈ ggaW1 fs ++ ggaW2 fs,
      payOr (flush_pending_topics X1).1.topics w.1 = some w.2 := by
    intro w hw
    rw [hPO w.1, hX1, foldWrites_payOr]
    simp only [ggaW1, ggaW2, List.mem_append, List.mem_cons, List.not_mem_nil,
      or_false] at hw
    rcases hw with (h|h|h|h)|(h|h|h|h) <;> subst h <;> simp [ggaW2, wsLast] <;>
      (rw [hgnne _ (by decide), foldWrites_payOr]; simp [ggaW1, wsLast])
  have hstable := foldWrites_stable (ggaW1 fs ++ ggaW2 fs) (flush_pending_topics X1).1 Hpay
  rw [hI1]
  show ingestGGA (flush_pending_topics X1).1 fs = ((flush_pending_topics X1).1, [])
  simp only [ingestGGA, hP2, hstable]
  have hXalw : X1.always = false := hst1a
  rw [reflush X1 (List.map Prod.fst (ggaW1 fs ++ ggaW2 fs)),
      reflush_pubs X1 (List.map Prod.fst (ggaW1 fs ++ ggaW2 fs)) hXalw]
  rfl

/-! ## The GSV satellite tracker -/

/-- Array read `sats[i]` (out-of-range reads yield the zero record; the C
code never reads out of range for the inputs considered here). -/
def satAt (sats : List Sat) (i : Int) : Sat := sats.getD i.toNat satZero

/-- The gsv record for a talker (`find_gsv` without the allocation side
effect); absent talkers read as a fresh record. -/
def getG (st : St) (tal : String) : Gsv :=
  (st.gsvs.find? (fun g => g.talker == tal)).getD (mkGsv tal)

/-- In-place update of a talker's gsv record. -/
def setG (st : St) (tal : String) (f : Gsv → Gsv) : St :=
  { st with gsvs := st.gsvs.map (fun g => if g.talker == tal then f g else g) }

/-- The allocation side effect of `find_gsv` (lines 645-668). -/
def ensureG (st : St) (tal : String) : St :=
  if st.gsvs.any (fun g => g.talker == tal) then st
  else { st with gsvs := st.gsvs ++ [mkGsv tal] }

/-- The topic of one satellite component, `mktopic("sat/%i/…", prn)`. -/
def satTopic (prn : Int) (comp : String) : String :=
  "sat/" ++ toString prn ++ "/" ++ comp

/-- Embedding of `clear_sat` (lines 798-809): nothing for PRNs beyond the
array; otherwise empty retained deletes for a published satellite, then the
record is zeroed. -/
def clear_sat (st : St) (tal : String) (prn : Int) : St × List Pub :=
  if prn ≥ (st.ssats : Int) then (st, [])
  else
    let r1 :=
      if (satAt st.sats prn).sent = true then
        let ra := publish_topicrt st (some tal) (satTopic prn "elv") true true true none
        let rb := publish_topicrt ra.1 (some tal) (satTopic prn "azm") true true true none
        let rc := publish_topicrt rb.1 (some tal) (satTopic prn "snr") true true true none
        (rc.1, ra.2 ++ rb.2 ++ rc.2)
      else (st, [])
    ({ r1.1 with sats := r1.1.sats.set prn.toNat satZero }, r1.2)

/-- A guarded left-to-right `clear_sat` loop over `cnt` PRNs starting at
`j`: with the guard `sent && !recvd` it is the end-of-block loop of
`recvd_gsv` (lines 771-773), with the trivial guard it is the inclusive
loop of `clear_gsvs` (lines 817-818). -/
def clearLoop (cond : Sat → Bool) (tal : String) : St → Int → Nat → St × List Pub
  | st, _, 0 => (st, [])
  | st, j, n + 1 =>
    let r1 := if cond (satAt st.sats j) = true then clear_sat st tal j else (st, [])
    let r2 := clearLoop cond tal r1.1 (j + 1) n
    (r2.1, r1.2 ++ r2.2)

/-- Array growth in `recvd_gsv` (lines 731-738): first allocation is 128
records; later growth rounds `prn` up to a multiple of 128; new records are
zeroed. -/
def growSats (st : St) (prn : Int) : St :=
  if prn > (st.ssats : Int) then
    let ns : Nat := if st.ssats = 0 then 128 else ((prn.toNat + 127) / 128) * 128
    { st with
        ssats := ns
        sats := st.sats ++ List.replicate (ns - st.sats.length) satZero }
  else st

/-- One satellite 4-tuple of a GSV packet (lines 726-768): grow the array,
publish changed components (retained, not cached, talker-prefixed), update
the record, count tracked satellites, and expand the talker's PRN range. -/
def gsvTupleStep (st : St) (tal : String) (prn elv azm snr : Int) : St × List Pub :=
  let st := growSats st prn
  let sat := satAt st.sats prn
  let r1 :=
    if st.always = true ∨ sat.sent = false ∨ elv ≠ sat.elv then
      publish_topicrt st (some tal) (satTopic prn "elv") true true true
        (some (toString elv))
    else (st, [])
  let r2 :=
    if st.always = true ∨ sat.sent = false ∨ azm ≠ sat.azm then
      publish_topicrt r1.1 (some tal) (satTopic prn "azm") true true true
        (some (toString azm))
    else (r1.1, [])
  let r3 :=
    if st.always = true ∨ sat.sent = false ∨ snr ≠ sat.snr then
      publish_topicrt r2.1 (some tal) (satTopic prn "snr") true true true
        (some (if snr < 0 then "" else toString snr))
    else (r2.1, [])
  let st4 := { r3.1 with sats := r3.1.sats.set prn.toNat ⟨snr, elv, azm, true, true⟩ }
  let st5 := if snr ≥ 0 then setG st4 tal (fun g => { g with sattrack := g.sattrack + 1 })
    else st4
  let st6 := setG st5 tal
    (fun g => if prn < g.satmin ∨ g.satmax = 0 then { g with satmin := prn } else g)
  let st7 := setG st6 tal (fun g => if prn > g.satmax then { g with satmax := prn } else g)
  (st7, r1.2 ++ r2.2 ++ r3.2)

/-- The up-to-four-tuples loop of `recvd_gsv` (lines 722-769); iteration
stops at an empty (or missing) PRN field. -/
def gsvTupleLoop (tal : String) (fs : List String) : St → Nat → Nat → St × List Pub
  | st, _, 0 => (st, [])
  | st, cur, k + 1 =>
    if fieldAt fs cur = "" then (st, [])
    else
      let prn := strtoulI (fieldAt fs cur)
      let elv := strtoulI (fieldAt fs (cur + 1))
      let azm := strtoulI (fieldAt fs (cur + 2))
      let snr := strtoulI (tokOr fs (cur + 3) "-1")
      let r1 := gsvTupleStep st tal prn elv azm snr
      let r2 := gsvTupleLoop tal fs r1.1 (cur + 4) k
      (r2.1, r1.2 ++ r2.2)

/-- The start-of-block reset (lines 715-720): clear `recvd` for the
talker's PRN range (bounded by the array size) and reset `sattrack`. -/
def resetLoop : List Sat → Nat → Nat → List Sat
  | sats, _, 0 => sats
  | sats, j, n + 1 =>
    resetLoop (sats.set j { sats.getD j satZero with recvd := false }) (j + 1) n

def startBlock (st : St) (tal : String) : St :=
  let g := getG st tal
  let cnt : Nat := (min (g.satmax + 1) (st.ssats : Int) - g.satmin).toNat
  let st1 := { st with sats := resetLoop st.sats g.satmin.toNat cnt }
  setG st1 tal (fun g => { g with sattrack := 0 })

/-- Embedding of `recvd_gsv` (lines 697-796). -/
def recvd_gsv (st : St) (fs : List String) : St × List Pub :=
  let tal := st.talker
  let st := ensureG st tal
  let msgcnt := strtoulI (fieldAt fs 0)
  let msgidx := strtoulI (fieldAt fs 1)
  let nsat := strtoulI (fieldAt fs 2)
  let st := if msgidx = 1 then startBlock st tal else st
  let rT := gsvTupleLoop tal fs st 3 4
  if msgidx = msgcnt then
    let g := getG rT.1 tal
    let rC := clearLoop (fun s => s.sent && !s.recvd) tal rT.1 g.satmin
      (g.satmax - g.satmin).toNat
    let g1 := getG rC.1 tal
    let rV :=
      if rC.1.always = true ∨ g1.gnew = true ∨ nsat ≠ g1.satview then
        publish_topicrt rC.1 (some tal) "satview" false true false (some (toString nsat))
      else (rC.1, [])
    let sV := setG rV.1 tal (fun g => { g with satview := nsat })
    let g3 := getG sV tal
    let rK :=
      if sV.always = true ∨ g3.gnew = true ∨ g3.sattrack ≠ g3.sattrack_saved then
        publish_topicrt sV (some tal) "sattrack" false true false
          (some (toString g3.sattrack))
      else (sV, [])
    let sK := setG rK.1 tal (fun g => { g with sattrack_saved := g.sattrack, gnew := false })
    let sv := sK.gsvs.foldl (fun a g => a + g.satview) 0
    let tr := sK.gsvs.foldl (fun a g => a + g.sattrack_saved) 0
    let rA := publish_topicrt sK (some "gn") "satview" true true false (some (toString sv))
    let rB := publish_topicrt rA.1 (some "gn") "sattrack" true true false
      (some (toString tr))
    (rB.1, rT.2 ++ rC.2 ++ rV.2 ++ rK.2 ++ rA.2 ++ rB.2)
  else rT

/-- The per-talker loop of `clear_gsvs` (lines 816-824); counter resets on
the gsv records are omitted because the records are freed right after. -/
def clearGsvsLoop : St → List Gsv → St × List Pub
  | st, [] => (st, [])
  | st, g :: gs =>
    let r1 := clearLoop (fun _ => true) g.talker st g.satmin
      (g.satmax - g.satmin + 1).toNat
    let r2 := publish_topicrt r1.1 (some g.talker) "satview" true true true none
    let r3 := publish_topicrt r2.1 (some g.talker) "sattrack" true true true none
    let r4 := clearGsvsLoop r3.1 gs
    (r4.1, r1.2 ++ r2.2 ++ r3.2 ++ r4.2)

/-- Embedding of `clear_gsvs` (lines 811-832): clear every tracked talker,
then free all per-talker and per-PRN state. -/
def clear_gsvs (st : St) : St × List Pub :=
  let r := clearGsvsLoop st st.gsvs
  ({ r.1 with gsvs := [], sats := [], ssats := 0 }, r.2)

/-- The `cfg/msgs` branch of the MQTT message callback (lines 280-287):
empty payloads are ignored; otherwise merge the message list and clear the
satellite state when GSV just got disabled. -/
def handle_cfg_msgs (st : St) (payload : String) : St × List Pub :=
  if payload = "" then (st, [])
  else
    let gsv0 := nmea_use_msg st.nmea_use "gsv"
    let st1 : St := { st with nmea_use := merge_nmea_use st.nmea_use payload }
    if gsv0 = true ∧ nmea_use_msg st1.nmea_use "gsv" = false then clear_gsvs st1
    else (st1, [])

/-! ## Claim C3: end-of-block clearing misses the upper bound -/

theorem getD_set_self {α : Type} (l : List α) (i : Nat) (x d : α) (h : i < l.length) :
    (l.set i x).getD i d = x := by
  induction l generalizing i with
  | nil => simp at h
  | cons a l ih =>
    cases i with
    | zero => simp
    | succ n => simpa using ih n (by simpa using h)

theorem getD_set_ne {α : Type} (l : List α) (i k : Nat) (x d : α) (h : i ≠ k) :
    (l.set i x).getD k d = l.getD k d := by
  induction l generalizing i k with
  | nil => simp
  | cons a l ih =>
    cases i with
    | zero =>
      cases k with
      | zero => exact absurd rfl h
      | succ m => simp
    | succ n =>
      cases k with
      | zero => simp
      | succ m => simpa using ih n m (by omega)

/-- An immediate (uncached) publish. -/
theorem publish_nocache (st : St) (tal : Option String) (topic : String)
    (flRetain ign : Bool) (v : Option String) :
    publish_topicrt st tal topic flRetain ign true v =
      (st, [⟨realtopic st tal ign topic, nanFix (v.getD ""), flRetain⟩]) := by
  simp [publish_topicrt, publish_cache]

/-- An immediate non-retained publish. -/
theorem publish_plain (st : St) (tal : Option String) (topic : String)
    (ign : Bool) (v : Option String) :
    publish_topicrt st tal topic false ign false v =
      (st, [⟨realtopic st tal ign topic, nanFix (v.getD ""), false⟩]) := by
  simp [publish_topicrt, publish_cache]

theorem nanFix_empty : nanFix "" = "" := rfl

/-- `clear_sat` on a published, in-range satellite: three retained deletes
and a zeroed record. -/
theorem clear_sat_eq (st : St) (tal : String) (prn : Int)
    (h1 : ¬prn ≥ (st.ssats : Int)) (h2 : (satAt st.sats prn).sent = true) :
    clear_sat st tal prn =
      ({ st with sats := st.sats.set prn.toNat satZero },
       [⟨realtopic st (some tal) true (satTopic prn "elv"), "", true⟩,
        ⟨realtopic st (some tal) true (satTopic prn "azm"), "", true⟩,
        ⟨realtopic st (some tal) true (satTopic prn "snr"), "", true⟩]) := by
  simp [clear_sat, h1, h2, publish_nocache, nanFix_empty]

/-- `clear_sat` only rewrites the `sats` array, zeroing its PRN when in
range. -/
theorem clear_sat_shape (st : St) (tal : String) (prn : Int) :
    (clear_sat st tal prn).1 = { st with
      sats := if prn ≥ (st.ssats : Int) then st.sats
        else st.sats.set prn.toNat satZero } := by
  by_cases h : prn ≥ (st.ssats : Int)
  · simp [clear_sat, h]
  · by_cases hs : (satAt st.sats prn).sent = true
    · simp [clear_sat, h, hs, publish_nocache]
    · simp [clear_sat, h, hs]

/-- The record store of `clear_sat` touches only the cleared index. -/
theorem clear_sat_sats_ne (st : St) (tal : String) (prn q : Int)
    (hp : 0 ≤ prn) (h0 : 0 ≤ q) (hne : q ≠ prn) :
    satAt (clear_sat st tal prn).1.sats q = satAt st.sats q := by
  rw [clear_sat_shape]
  by_cases h : prn ≥ (st.ssats : Int)
  · simp [h]
  · simp only [if_neg h]
    show satAt (st.sats.set prn.toNat satZero) q = satAt st.sats q
    unfold satAt
    apply getD_set_ne
    omega

/-- `clear_sat` preserves the array length. -/
theorem clear_sat_len (st : St) (tal : String) (prn : Int) :
    (clear_sat st tal prn).1.sats.length = st.sats.length := by
  rw [clear_sat_shape]
  by_cases h : prn ≥ (st.ssats : Int) <;> simp [h]

/-- `clear_sat` preserves the recorded array size. -/
theorem clear_sat_ssats (st : St) (tal : String) (prn : Int) :
    (clear_sat st tal prn).1.ssats = st.ssats := by
  rw [clear_sat_shape]

/-- `clear_sat` does not affect topic resolution. -/
theorem realtopic_clear_sat (st : St) (tal : String) (prn : Int)
    (tal' : Option String) (ign : Bool) (topic : String) :
    realtopic (clear_sat st tal prn).1 tal' ign topic = realtopic st tal' ign topic := by
  rw [clear_sat_shape]
  rfl

/-- Indices left of the cursor are never touched again by `clearLoop`. -/
theorem clearLoop_sats_lt (cond : Sat → Bool) (tal : String) :
    ∀ (cnt : Nat) (st : St) (j prn : Int), 0 ≤ prn → prn < j →
    satAt (clearLoop cond tal st j cnt).1.sats prn = satAt st.sats prn := by
  intro cnt
  induction cnt with
  | zero => intro st j prn _ _; rfl
  | succ n ih =>
    intro st j prn h0 hlt
    show satAt (clearLoop cond tal _ (j + 1) n).1.sats prn = _
    by_cases hc : cond (satAt st.sats j) = true
    · rw [if_pos hc, ih _ _ _ h0 (by omega),
        clear_sat_sats_ne st tal j prn (by omega) h0 (by omega)]
    · rw [if_neg hc, ih _ _ _ h0 (by omega)]

/-- A PRN inside the scanned window whose record satisfies the guard (and
was published) ends up zeroed, with the three retained deletes emitted. -/
theorem clearLoop_clears (cond : Sat → Bool) (tal : String) :
    ∀ (cnt : Nat) (st : St) (j prn : Int),
    0 ≤ j → j ≤ prn → prn < j + cnt →
    prn < (st.ssats : Int) → st.ssats ≤ st.sats.length →
    cond (satAt st.sats prn) = true →
    (satAt st.sats prn).sent = true →
    satAt (clearLoop cond tal st j cnt).1.sats prn = satZero ∧
    ∀ comp ∈ (["elv", "azm", "snr"] : List String),
      (⟨realtopic st (some tal) true (satTopic prn comp), "", true⟩ : Pub)
        ∈ (clearLoop cond tal st j cnt).2 := by
  intro cnt
  induction cnt with
  | zero => intro st j prn _ hle hlt _ _ _ _; omega
  | succ n ih =>
    intro st j prn hj hle hlt hss hlen hcond hsent
    by_cases hjp : j = prn
    · subst hjp
      have hne : ¬j ≥ (st.ssats : Int) := by omega
      have heq := clear_sat_eq st tal j hne hsent
      show satAt (clearLoop cond tal (if cond (satAt st.sats j) = true then
          clear_sat st tal j else (st, [])).1 (j + 1) n).1.sats j = satZero ∧ _
      rw [if_pos hcond, heq]
      constructor
      · rw [clearLoop_sats_lt cond tal n _ (j + 1) j hj (by omega)]
        show (st.sats.set j.toNat satZero).getD j.toNat satZero = satZero
        apply getD_set_self
        omega
      · intro comp hcomp
        simp only [List.mem_cons, List.not_mem_nil, or_false] at hcomp
        have hmem : ∀ p ∈ (clear_sat st tal j).2,
            p ∈ (clearLoop cond tal st j (n + 1)).2 := by
          intro p hp
          show p ∈ (if cond (satAt st.sats j) = true then clear_sat st tal j
            else (st, [])).2 ++ _
          rw [if_pos hcond]
          exact List.mem_append_left _ hp
        rcases hcomp with h | h | h <;> subst h <;> exact hmem _ (by rw [heq]; simp)
    · have hstep : ∀ st1 : St, st1 = (if cond (satAt st.sats j) = true then
          clear_sat st tal j else (st, [])).1 →
          satAt st1.sats prn = satAt st.sats prn ∧ st1.ssats = st.ssats ∧
          st1.sats.length = st.sats.length ∧
          (∀ comp : String, realtopic st1 (some tal) true (satTopic prn comp) =
            realtopic st (some tal) true (satTopic prn comp)) := by
        intro st1 h1
        by_cases hc : cond (satAt st.sats j) = true
        · rw [h1, if_pos hc]
          exact ⟨clear_sat_sats_ne st tal j prn hj (by omega) (by omega),
            clear_sat_ssats st tal j, clear_sat_len st tal j,
            fun comp => realtopic_clear_sat st tal j _ _ _⟩
        · rw [h1, if_neg hc]
          exact ⟨rfl, rfl, rfl, fun _ => rfl⟩
      obtain ⟨hA, hB, hC, hD⟩ := hstep _ rfl
      have hrec := ih (if cond (satAt st.sats j) = true then
          clear_sat st tal j else (st, [])).1 (j + 1) prn (by omega) (by omega)
        (by omega) (by rw [hB, hA] at *; omega)
        (by rw [hB, hC]; exact hlen) (by rw [hA]; exact hcond) (by rw [hA]; exact hsent)
      refine ⟨hrec.1, ?_⟩
      intro comp hcomp
      apply List.mem_append_right
      have := hrec.2 comp hcomp
      rw [hD comp] at this
      exact this

def c3st : St := { talker := "gp" }

def c3fsA : List String := ["1", "1", "2", "1", "10", "20", "30", "2", "11", "21", "31"]

def c3fsB : List String := ["1", "1", "2", "1", "10", "20", "30"]

/-- Claim C3, counterexample: after a GSV block reporting PRNs 1 and 2 and
a follow-up single-packet block reporting only PRN 1, the end-of-block
clearing skips PRN 2 even though it is `satmax` with `sent` set and `recvd`
clear: its record is not zeroed and the only publication of the second
block is the `sattrack` update — no `sat/2/{elv,azm,snr}` deletes. -/
theorem c3_counterexample :
    (getG (recvd_gsv (recvd_gsv c3st c3fsA).1 c3fsB).1 "gp").satmax = 2 ∧
    (satAt (recvd_gsv (recvd_gsv c3st c3fsA).1 c3fsB).1.sats 2).sent = true ∧
    (satAt (recvd_gsv (recvd_gsv c3st c3fsA).1 c3fsB).1.sats 2).recvd = false ∧
    satAt (recvd_gsv (recvd_gsv c3st c3fsA).1 c3fsB).1.sats 2 ≠ satZero ∧
    (recvd_gsv (recvd_gsv c3st c3fsA).1 c3fsB).2 =
      [⟨"gps/gp/sattrack", "1", false⟩] := by decide

/-- Claim C3 (amended): at the end of a GSV block the clearing loop covers
the half-open PRN range `[satmin, satmax)`: every PRN in it that is within
the array, with `sent` set and `recvd` clear, has empty retained payloads
published for `sat/<prn>/elv`, `sat/<prn>/azm` and `sat/<prn>/snr` and its
record zeroed; PRN = `satmax` itself is excluded from the clearing. -/
theorem c3_amended_halfopen_clear (st : St) (tal : String) (prn : Int)
    (h1 : 0 ≤ (getG st tal).satmin) (h2 : (getG st tal).satmin ≤ prn)
    (h3 : prn < (getG st tal).satmax)
    (h4 : prn < (st.ssats : Int)) (h5 : st.ssats ≤ st.sats.length)
    (h6 : (satAt st.sats prn).sent = true)
    (h7 : (satAt st.sats prn).recvd = false) :
    satAt (clearLoop (fun s => s.sent && !s.recvd) tal st (getG st tal).satmin
      ((getG st tal).satmax - (getG st tal).satmin).toNat).1.sats prn = satZero ∧
    ∀ comp ∈ (["elv", "azm", "snr"] : List String),
      (⟨realtopic st (some tal) true (satTopic prn comp), "", true⟩ : Pub)
        ∈ (clearLoop (fun s => s.sent && !s.recvd) tal st (getG st tal).satmin
          ((getG st tal).satmax - (getG st tal).satmin).toNat).2 :=
  clearLoop_clears _ tal _ st _ prn h1 h2 (by omega) h4 h5 (by simp [h6, h7]) h6

def c3wst : St := { talker := "gp"
                    gsvs := [⟨"gp", 1, 2, 0, 0, 0, 0, false⟩]
                    sats := [satZero, ⟨30, 10, 20, false, true⟩, satZero]
                    ssats := 3 }

theorem c3_witness :
    (satAt c3wst.sats 1).sent = true ∧
    satAt (clearLoop (fun s => s.sent && !s.recvd) "gp" c3wst
      (getG c3wst "gp").satmin
      ((getG c3wst "gp").satmax - (getG c3wst "gp").satmin).toNat).1.sats 1 = satZero :=
  ⟨by decide, (c3_amended_halfopen_clear c3wst "gp" 1 (by decide) (by decide)
    (by decide) (by decide) (by decide) (by decide) (by decide)).1⟩

/-- Publishing (cached or immediate) never touches the satellite array. -/
theorem publish_topicrt_sats (st : St) (tal : Option String) (topic : String)
    (a b c : Bool) (v : Option String) :
    (publish_topicrt st tal topic a b c v).1.sats = st.sats := by
  unfold publish_topicrt publish_cache
  split <;> rfl

theorem publish_topicrt_ssats (st : St) (tal : Option String) (topic : String)
    (a b c : Bool) (v : Option String) :
    (publish_topicrt st tal topic a b c v).1.ssats = st.ssats := by
  unfold publish_topicrt publish_cache
  split <;> rfl

theorem publish_topicrt_always (st : St) (tal : Option String) (topic : String)
    (a b c : Bool) (v : Option String) :
    (publish_topicrt st tal topic a b c v).1.always = st.always := by
  unfold publish_topicrt publish_cache
  split <;> rfl

theorem growSats_always (st : St) (prn : Int) :
    (growSats st prn).always = st.always := by
  unfold growSats
  split <;> rfl

/-- One GSV tuple: the resulting array is the grown array with the PRN
record overwritten, the size and `always` are untouched. -/
theorem gsvTupleStep_proj (st : St) (tal : String) (prn elv azm snr : Int) :
    (gsvTupleStep st tal prn elv azm snr).1.sats =
      (growSats st prn).sats.set prn.toNat ⟨snr, elv, azm, true, true⟩ ∧
    (gsvTupleStep st tal prn elv azm snr).1.ssats = (growSats st prn).ssats ∧
    (gsvTupleStep st tal prn elv azm snr).1.always = st.always := by
  refine ⟨?_, ?_, ?_⟩ <;>
    simp only [gsvTupleStep, setG] <;>
    (repeat' split) <;>
    simp [publish_topicrt_sats, publish_topicrt_ssats, publish_topicrt_always,
      growSats_always]

/-- Claim C10: the per-PRN satellite store is one global array shared by
all talkers. After talker `tal` reports a tuple for a PRN, a second talker
`tal2` reporting the same tuple publishes nothing at all — the change
detection consults the record `tal` just wrote (in a per-talker store the
fresh record's clear `sent` flag would force all three publications) — and
the single record holds the values most recently written, with `sent` and
`recvd` set. -/
theorem c10_shared_sat_store (st : St) (tal tal2 : String) (prn elv azm snr : Int)
    (halw : st.always = false)
    (hlen : prn.toNat < (growSats st prn).sats.length)
    (hss : prn ≤ ((growSats st prn).ssats : Int)) :
    (gsvTupleStep (gsvTupleStep st tal prn elv azm snr).1 tal2 prn elv azm snr).2 = [] ∧
    satAt (gsvTupleStep (gsvTupleStep st tal prn elv azm snr).1 tal2
      prn elv azm snr).1.sats prn = ⟨snr, elv, azm, true, true⟩ := by
  obtain ⟨hA1, hA2, hA3⟩ := gsvTupleStep_proj st tal prn elv azm snr
  set A := (gsvTupleStep st tal prn elv azm snr).1 with hA
  have hGA : growSats A prn = A := by
    unfold growSats
    rw [if_neg]
    rw [hA2]
    omega
  have hsat : satAt A.sats prn = ⟨snr, elv, azm, true, true⟩ := by
    rw [hA1]
    exact getD_set_self _ _ _ _ hlen
  have hlen2 : prn.toNat < A.sats.length := by
    rw [hA1]
    simpa using hlen
  have halw2 : A.always = false := by rw [hA3, halw]
  constructor
  · simp only [gsvTupleStep, hGA, hsat, halw2]
    simp
  · simp only [gsvTupleStep, hGA, hsat, halw2]
    by_cases hs : snr ≥ 0 <;>
      simp [hs, setG, satAt] <;>
      (rw [← List.getD_eq_getElem?_getD]; exact getD_set_self _ _ _ _ hlen2)

set_option maxRecDepth 10000 in
theorem c10_witness :
    ({} : St).always = false ∧
    (gsvTupleStep (gsvTupleStep {} "gp" 7 10 20 30).1 "gl" 7 10 20 30).2 = [] :=
  ⟨by decide, (c10_shared_sat_store {} "gp" "gl" 7 10 20 30 (by decide)
    (by decide) (by decide)).1⟩

/-- Publishing does not change topic resolution (only the cache and dirty
counter move). -/
theorem publish_topicrt_realtopic (st : St) (tal : Option String) (topic : String)
    (a b c : Bool) (v : Option String) (tal' : Option String) (ign : Bool) (t : String) :
    realtopic (publish_topicrt st tal topic a b c v).1 tal' ign t =
      realtopic st tal' ign t := by
  unfold publish_topicrt publish_cache
  split <;> rfl

theorem clearLoop_ssats (cond : Sat → Bool) (tal : String) :
    ∀ (cnt : Nat) (st : St) (j : Int),
    (clearLoop cond tal st j cnt).1.ssats = st.ssats := by
  intro cnt
  induction cnt with
  | zero => intro st j; rfl
  | succ n ih =>
    intro st j
    show (clearLoop cond tal _ (j + 1) n).1.ssats = _
    by_cases hc : cond (satAt st.sats j) = true
    · rw [if_pos hc, ih, clear_sat_ssats]
    · rw [if_neg hc, ih]

theorem clearLoop_len (cond : Sat → Bool) (tal : String) :
    ∀ (cnt : Nat) (st : St) (j : Int),
    (clearLoop cond tal st j cnt).1.sats.length = st.sats.length := by
  intro cnt
  induction cnt with
  | zero => intro st j; rfl
  | succ n ih =>
    intro st j
    show (clearLoop cond tal _ (j + 1) n).1.sats.length = _
    by_cases hc : cond (satAt st.sats j) = true
    · rw [if_pos hc, ih, clear_sat_len]
    · rw [if_neg hc, ih]

theorem clearLoop_realtopic (cond : Sat → Bool) (tal : String) :
    ∀ (cnt : Nat) (st : St) (j : Int) (tal' : Option String) (ign : Bool) (t : String),
    realtopic (clearLoop cond tal st j cnt).1 tal' ign t = realtopic st tal' ign t := by
  intro cnt
  induction cnt with
  | zero => intro st j tal' ign t; rfl
  | succ n ih =>
    intro st j tal' ign t
    show realtopic (clearLoop cond tal _ (j + 1) n).1 tal' ign t = _
    by_cases hc : cond (satAt st.sats j) = true
    · rw [if_pos hc, ih, realtopic_clear_sat]
    · rw [if_neg hc, ih]

/-- PRNs outside the scanned window are untouched by `clearLoop`. -/
theorem clearLoop_sats_outside (cond : Sat → Bool) (tal : String) :
    ∀ (cnt : Nat) (st : St) (j prn : Int), 0 ≤ j → 0 ≤ prn →
    (prn < j ∨ j + cnt ≤ prn) →
    satAt (clearLoop cond tal st j cnt).1.sats prn = satAt st.sats prn := by
  intro cnt
  induction cnt with
  | zero => intro st j prn _ _ _; rfl
  | succ n ih =>
    intro st j prn hj h0 hout
    show satAt (clearLoop cond tal _ (j + 1) n).1.sats prn = _
    by_cases hc : cond (satAt st.sats j) = true
    · rw [if_pos hc, ih _ _ _ (by omega) h0 (by omega),
        clear_sat_sats_ne st tal j prn hj h0 (by omega)]
    · rw [if_neg hc, ih _ _ _ (by omega) h0 (by omega)]

/-- Every tracked talker gets empty retained `satview` and `sattrack`
publications from the `clear_gsvs` loop. -/
theorem clearGsvsLoop_talker_pubs :
    ∀ (gs : List Gsv) (st : St) (g : Gsv), g ∈ gs →
    ((⟨realtopic st (some g.talker) true "satview", "", true⟩ : Pub)
      ∈ (clearGsvsLoop st gs).2) ∧
    ((⟨realtopic st (some g.talker) true "sattrack", "", true⟩ : Pub)
      ∈ (clearGsvsLoop st gs).2) := by
  intro gs
  induction gs with
  | nil => intro st g hg; cases hg
  | cons g0 gs ih =>
    intro st g hg
    simp only [clearGsvsLoop]
    rcases List.mem_cons.mp hg with h | h
    · subst h
      constructor <;>
        simp [publish_nocache, publish_topicrt_realtopic, clearLoop_realtopic,
          nanFix_empty, List.mem_append]
    · have hrec := ih ((publish_topicrt (publish_topicrt (clearLoop (fun _ => true)
        g0.talker st g0.satmin (g0.satmax - g0.satmin + 1).toNat).1
        (some g0.talker) "satview" true true true none).1
        (some g0.talker) "sattrack" true true true none).1) g h
      simp only [publish_topicrt_realtopic, clearLoop_realtopic] at hrec
      refine ⟨?_, ?_⟩
      · exact List.mem_append_right _ hrec.1
      · exact List.mem_append_right _ hrec.2

/-- Every satellite that some tracked talker covers (inclusive range) and
that was published gets its three retained deletes during `clear_gsvs`,
attributed to one of the talkers. -/
theorem clearGsvsLoop_clears :
    ∀ (gs : List Gsv) (st : St) (prn : Int),
    0 ≤ prn → prn < (st.ssats : Int) → st.ssats ≤ st.sats.length →
    (∀ g ∈ gs, 0 ≤ g.satmin) →
    (satAt st.sats prn).sent = true →
    (∃ g ∈ gs, g.satmin ≤ prn ∧ prn ≤ g.satmax) →
    ∃ tal : String, ∀ comp ∈ (["elv", "azm", "snr"] : List String),
      (⟨realtopic st (some tal) true (satTopic prn comp), "", true⟩ : Pub)
        ∈ (clearGsvsLoop st gs).2 := by
  intro gs
  induction gs with
  | nil =>
    intro st prn _ _ _ _ _ hex
    simp at hex
  | cons g0 gs ih =>
    intro st prn h0 hss hlen hmin hsent hex
    simp only [clearGsvsLoop]
    have hg : (0 : Int) ≤ g0.satmin := hmin g0 (List.mem_cons_self _ _)
    by_cases hcov : g0.satmin ≤ prn ∧ prn ≤ g0.satmax
    · refine ⟨g0.talker, ?_⟩
      have hc := clearLoop_clears (fun _ => true) g0.talker
        (g0.satmax - g0.satmin + 1).toNat st g0.satmin prn hg hcov.1 (by omega)
        hss hlen rfl hsent
      intro comp hcomp
      exact List.mem_append_left _ (List.mem_append_left _ (List.mem_append_left _
        (hc.2 comp hcomp)))
    · obtain ⟨g1, hg1, hr⟩ := hex
      rcases List.mem_cons.mp hg1 with he | he
      · subst he; exact absurd hr hcov
      have hout : satAt (clearLoop (fun _ => true) g0.talker st g0.satmin
          (g0.satmax - g0.satmin + 1).toNat).1.sats prn = satAt st.sats prn :=
        clearLoop_sats_outside _ _ _ _ _ _ hg h0 (by omega)
      have hX1 : ((publish_topicrt (publish_topicrt (clearLoop (fun _ => true)
          g0.talker st g0.satmin (g0.satmax - g0.satmin + 1).toNat).1
          (some g0.talker) "satview" true true true none).1
          (some g0.talker) "sattrack" true true true none).1).ssats = st.ssats := by
        simp [publish_topicrt_ssats, clearLoop_ssats]
      have hX2 : ((publish_topicrt (publish_topicrt (clearLoop (fun _ => true)
          g0.talker st g0.satmin (g0.satmax - g0.satmin + 1).toNat).1
          (some g0.talker) "satview" true true true none).1
          (some g0.talker) "sattrack" true true true none).1).sats.length
          = st.sats.length := by
        simp [publish_topicrt_sats, clearLoop_len]
      have hX3 : satAt ((publish_topicrt (publish_topicrt (clearLoop (fun _ => true)
          g0.talker st g0.satmin (g0.satmax - g0.satmin + 1).toNat).1
          (some g0.talker) "satview" true true true none).1
          (some g0.talker) "sattrack" true true true none).1).sats prn
          = satAt st.sats prn := by
        simp only [publish_topicrt_sats]
        exact hout
      obtain ⟨tal, htal⟩ := ih ((publish_topicrt (publish_topicrt (clearLoop
          (fun _ => true) g0.talker st g0.satmin
          (g0.satmax - g0.satmin + 1).toNat).1
          (some g0.talker) "satview" true true true none).1
          (some g0.talker) "sattrack" true true true none).1) prn h0
        (by rw [hX1]; exact hss) (by rw [hX1, hX2]; exact hlen)
        (fun g hgm => hmin g (List.mem_cons_of_mem _ hgm))
        (by rw [hX3]; exact hsent) ⟨g1, he, hr⟩
      refine ⟨tal, fun comp hcomp => ?_⟩
      have hm := htal comp hcomp
      simp only [publish_topicrt_realtopic, clearLoop_realtopic] at hm
      exact List.mem_append_right _ hm

/-- Claim C8: a `cfg/msgs` update that turns GSV from enabled to disabled
runs `clear_gsvs`: all per-talker gsv records and the whole satellite array
are freed, and for every tracked talker empty retained `satview` and
`sattrack` are published; every satellite in some talker's inclusive
`[satmin, satmax]` range that was published gets its three retained
`sat/<prn>/{elv,azm,snr}` deletes (under some talker's topic). -/
theorem c8_cfg_msgs_clear_gsvs (st : St) (payload : String)
    (hp : payload ≠ "")
    (hon : nmea_use_msg st.nmea_use "gsv" = true)
    (hoff : nmea_use_msg (merge_nmea_use st.nmea_use payload) "gsv" = false)
    (hmin : ∀ g ∈ st.gsvs, 0 ≤ g.satmin)
    (hlen : st.ssats ≤ st.sats.length) :
    (handle_cfg_msgs st payload).1.gsvs = [] ∧
    (handle_cfg_msgs st payload).1.sats = [] ∧
    (handle_cfg_msgs st payload).1.ssats = 0 ∧
    (∀ g ∈ st.gsvs,
      (⟨realtopic st (some g.talker) true "satview", "", true⟩ : Pub)
        ∈ (handle_cfg_msgs st payload).2 ∧
      (⟨realtopic st (some g.talker) true "sattrack", "", true⟩ : Pub)
        ∈ (handle_cfg_msgs st payload).2) ∧
    (∀ prn : Int, 0 ≤ prn → prn < (st.ssats : Int) →
      (satAt st.sats prn).sent = true →
      (∃ g ∈ st.gsvs, g.satmin ≤ prn ∧ prn ≤ g.satmax) →
      ∃ tal : String, ∀ comp ∈ (["elv", "azm", "snr"] : List String),
        (⟨realtopic st (some tal) true (satTopic prn comp), "", true⟩ : Pub)
          ∈ (handle_cfg_msgs st payload).2) := by
  have hrw : handle_cfg_msgs st payload =
      clear_gsvs { st with nmea_use := merge_nmea_use st.nmea_use payload } := by
    simp only [handle_cfg_msgs]
    rw [if_neg hp, if_pos ⟨hon, hoff⟩]
  rw [hrw]
  refine ⟨rfl, rfl, rfl, ?_, ?_⟩
  · intro g hg
    exact clearGsvsLoop_talker_pubs st.gsvs
      { st with nmea_use := merge_nmea_use st.nmea_use payload } g hg
  · intro prn h0 hss hsent hex
    exact clearGsvsLoop_clears st.gsvs
      { st with nmea_use := merge_nmea_use st.nmea_use payload } prn h0 hss hlen
      hmin hsent hex

def c8wst : St := { nmea_use := "+gga,-gns,-gsa,+gsv,+vtg,+zda".data
                    gsvs := [⟨"gp", 1, 1, 0, 0, 0, 0, false⟩]
                    sats := [satZero, ⟨30, 10, 20, false, true⟩]
                    ssats := 2 }

theorem c8_witness :
    ("-gsv" : String) ≠ "" ∧
    (handle_cfg_msgs c8wst "-gsv").1.gsvs = [] ∧
    (handle_cfg_msgs c8wst "-gsv").1.ssats = 0 := by
  have H := c8_cfg_msgs_clear_gsvs c8wst "-gsv" (by decide) (by decide) (by decide)
    (by decide) (by decide)
  exact ⟨by decide, H.1, H.2.2.1⟩

/-! ## Claim C4: u-blox frame length decode -/

/-- `v16 = buf[bufpos+4]` with `char *buf`: the signed char is sign-extended
into the `uint16_t`. -/
def sext8to16 (b : Nat) : Nat := if b < 128 then b else 65280 + b

/-- The little-endian 16-bit length at offsets 4..5, as the
`memcpy`/`le16toh` pair decodes it (line 991-992). -/
def ubloxLenLE (buf : List Nat) (pos : Nat) : Nat :=
  buf.getD (pos + 4) 0 + 256 * buf.getD (pos + 5) 0

/-- One u-blox step of the `recvd_data` parse loop (lines 983-998): on a
`0xB5 0x62` header, wait for the fixed 8 bytes, decode the length — the
little-endian decode is immediately overwritten by the plain byte read of
line 993 — wait for `v16 + 8` bytes and consume exactly that many;
`none` means the loop breaks to wait for more data. -/
def ubloxStep (buf : List Nat) (pos : Nat) : Option Nat :=
  if buf.getD pos 0 = 181 ∧ buf.getD (pos + 1) 0 = 98 then
    if buf.length - pos < 8 then none
    else
      let _v16le := ubloxLenLE buf pos
      let v16 := sext8to16 (buf.getD (pos + 4) 0)
      if buf.length - pos < v16 + 8 then none
      else some (v16 + 8)
  else none

def c4buf : List Nat := [181, 98, 1, 2, 0, 1] ++ List.replicate 258 0

set_option maxRecDepth 10000 in
/-- Claim C4: the framer is claimed to consume `8 + length` bytes with
`length` the full 2-byte little-endian field. For a frame whose length
field is `0x0100` (256) with all 264 bytes buffered, the code instead
consumes only `8 + low byte` = 8 bytes: the second byte of the length is
ignored, so the claim fails for every length of 256 or more. -/
theorem c4_length_low_byte_only :
    c4buf.length = 264 ∧ ubloxLenLE c4buf 0 = 256 ∧
    ubloxStep c4buf 0 = some 8 ∧ (8 : Nat) ≠ 256 + 8 := by decide

/-! ## Claim C9: shutdown self-sync is a prefix match -/

def selfsynctopic : String := "tmp/selfsync"

/-- `strncmp(a, b, n) == 0`: compare at most `n` characters, stopping at a
mismatch or at a NUL terminator. -/
def strncmpEq : List Char → List Char → Nat → Bool
  | _, _, 0 => true
  | a, b, n + 1 =>
    let ca := a.headD (Char.ofNat 0)
    let cb := b.headD (Char.ofNat 0)
    if ca = cb then
      if ca = Char.ofNat 0 then true else strncmpEq a.tail b.tail n
    else false

/-- Embedding of `is_self_sync` (lines 262-266): the topic must match and
`strncmp(myuuid, payload, payloadlen)` must be zero. -/
def is_self_sync (uuid topic payload : String) : Bool :=
  topic == selfsynctopic && strncmpEq uuid.data payload.data payload.data.length

/-- `if (is_self_sync(msg)) ready = 1;` of the message callback combined
with the `while (!ready)` shutdown loop (lines 273-274, 1233-1237). -/
def sync_ready_update (ready : Bool) (uuid topic payload : String) : Bool :=
  ready || is_self_sync uuid topic payload

/-- Claim C9, counterexample: an empty payload on the self-sync topic is
accepted and sets `ready` although it differs from the token. -/
theorem c9_counterexample :
    is_self_sync "123-456-789" "tmp/selfsync" "" = true ∧
    ("" : String) ≠ "123-456-789" ∧
    sync_ready_update false "123-456-789" "tmp/selfsync" "" = true := by decide

/-- NUL-free `strncmp(u, p, strlen p) == 0` is exactly the prefix test. -/
theorem strncmpEq_prefix (p : List Char) (hp : Char.ofNat 0 ∉ p) :
    ∀ u : List Char, (strncmpEq u p p.length = true ↔ p.isPrefixOf u = true) := by
  induction p with
  | nil => intro u; simp [strncmpEq, List.isPrefixOf]
  | cons c r ih =>
    have hc : c ≠ Char.ofNat 0 := fun h => hp (h ▸ List.mem_cons_self _ _)
    have hr : Char.ofNat 0 ∉ r := fun h => hp (List.mem_cons_of_mem _ h)
    intro u
    cases u with
    | nil =>
      simp [strncmpEq, List.isPrefixOf, List.length]
      intro h
      exact absurd h.symm hc
    | cons d v =>
      show strncmpEq (d :: v) (c :: r) (r.length + 1) = true ↔ _
      by_cases hdc : d = c
      · subst hdc
        simp [strncmpEq, hc, List.isPrefixOf, ih hr v]
      · simp [strncmpEq, hdc, List.isPrefixOf]
        intro h
        exact absurd h (fun hh => hdc hh.symm)

/-- Claim C9 (amended): during shutdown self-sync, `ready` is set exactly
when a message arrives on the self-sync topic whose (NUL-free) payload is a
prefix of the generated token — payload equality is sufficient but not
necessary; in particular an empty payload also ends the loop. -/
theorem c9_amended_prefix_sync (uuid topic payload : String)
    (hp : Char.ofNat 0 ∉ payload.data) :
    sync_ready_update false uuid topic payload = true ↔
      (topic = selfsynctopic ∧ payload.data.isPrefixOf uuid.data = true) := by
  simp only [sync_ready_update, Bool.false_or, is_self_sync, Bool.and_eq_true,
    beq_iff_eq, strncmpEq_prefix payload.data hp uuid.data]

theorem c9_witness :
    Char.ofNat 0 ∉ ("a" : String).data ∧
    sync_ready_update false "ab" "tmp/selfsync" "a" = true :=
  ⟨by decide, (c9_amended_prefix_sync "ab" "tmp/selfsync" "a" (by decide)).mpr
    ⟨rfl, by decide⟩⟩
